import Mathlib

set_option maxRecDepth 20000

/-!
Verification development for the Oort compiler (a Python compiler from a small
scripting language to Minecraft-datapack command files).  The definitions below
are a shallow embedding of the modules `ast.py`, `lexer.py`, `parser.py`,
`symbols.py`, `macros.py`, `resolver.py` and `emitter.py`; each definition
carries a doc comment naming the Python function or class it embeds.
Machine-independent data (paths, source text) is modelled as `String`;
Python heap references to `Scope` objects are modelled as indices into a
scope arena, following the arena reformulation the project documentation
itself suggests for a pure reimplementation.
-/

namespace Oort

/-- The `SymbolType` enum of symbols.py (VARIABLE, FUNCTION, MACRO, IMPORT, BUILTIN). -/
inductive SymbolType where
  | varSym
  | fnSym
  | macroSym
  | importSym
  | builtinSym
deriving DecidableEq

/-- Expression nodes of ast.py: Identifier, StringLiteral, NumberLiteral, Variable,
BinaryExpr, CallExpression.  The callee field of CallExpression is declared as
Identifier in Python, but it is a dynamically typed attribute and the macro
substitution pass can store an arbitrary expression there, so it is an `Expr`
here.  Expression nodes also carry a mutable scope attribute in Python, but no
pass ever reads the scope of an expression, so it is omitted. -/
inductive Expr where
  | ident (name : String)
  | strLit (value : String)
  | numLit (value : Int)
  | varRef (name : String)
  | binary (left : Expr) (op : String) (right : Expr)
  | callE (callee : Expr) (args : List Expr)

/-- Statement nodes of ast.py.  Every statement carries the mutable `scope`
attribute (`None` before the symbol-table pass, an arena index afterwards).
A Python `Block` node holds only an ordered statement list, and its own scope
attribute is written but never read, so blocks appear directly as `List Stmt`.
Import items hold plain (name, optional alias) strings; in Python they hold
Identifier nodes, which the substitution visitor would also rewrite when a
macro body contains an import statement - a corner not modelled here.
Function and macro declarations likewise store their name and parameters as
plain strings (in Python those Identifier nodes could also be rewritten by
substitution, another unreachable corner for the claims below).
The assignment target is declared Identifier in Python but is a dynamically
typed attribute that substitution can replace with any expression, so it is
an `Expr` here, as is the callee of a call statement. -/
inductive Stmt where
  | importStmt (scope : Option Nat) (path : String) (isStar : Bool)
      (items : List (String × Option String))
  | fnDecl (scope : Option Nat) (name : String) (params : List String) (body : List Stmt)
  | macroDecl (scope : Option Nat) (name : String) (params : List String) (body : List Stmt)
  | onBlock (scope : Option Nat) (eventType : String) (body : List Stmt)
  | ifStmt (scope : Option Nat) (condition : Expr) (ifBody : List Stmt)
      (elseBody : Option (List Stmt))
  | forStmt (scope : Option Nat) (varType : String) (varName : String)
      (iterable : Expr) (body : List Stmt)
  | whileStmt (scope : Option Nat) (condition : Expr) (body : List Stmt)
  | assign (scope : Option Nat) (target : Expr) (value : Expr)
  | callStmt (scope : Option Nat) (callee : Expr) (args : List Expr)

/-- The Module node of ast.py: a path and an ordered list of top-level
statements, plus the mutable scope attribute set by the symbol-table builder. -/
structure Module where
  path : String
  statements : List Stmt
  scope : Option Nat := none

/-- The scope attribute of a statement node. -/
def Stmt.scopeOf : Stmt → Option Nat
  | .importStmt sc _ _ _ => sc
  | .fnDecl sc _ _ _ => sc
  | .macroDecl sc _ _ _ => sc
  | .onBlock sc _ _ => sc
  | .ifStmt sc _ _ _ => sc
  | .forStmt sc _ _ _ _ => sc
  | .whileStmt sc _ _ => sc
  | .assign sc _ _ => sc
  | .callStmt sc _ _ => sc

/-- Assignment of the scope attribute of a statement node
(the `stmt.scope = self.current_scope` line of `visit_Block` in symbols.py). -/
def Stmt.setScope (s : Stmt) (sc : Option Nat) : Stmt :=
  match s with
  | .importStmt _ p st it => .importStmt sc p st it
  | .fnDecl _ n ps b => .fnDecl sc n ps b
  | .macroDecl _ n ps b => .macroDecl sc n ps b
  | .onBlock _ e b => .onBlock sc e b
  | .ifStmt _ c ib eb => .ifStmt sc c ib eb
  | .forStmt _ vt vn it b => .forStmt sc vt vn it b
  | .whileStmt _ c b => .whileStmt sc c b
  | .assign _ t v => .assign sc t v
  | .callStmt _ c a => .callStmt sc c a

/-- The dynamically typed `.name` attribute access used on callees and
assignment targets (`node.expression.callee.name`, `node.target.name`):
Identifier and Variable nodes expose a name, every other node class would
raise AttributeError. -/
def exprName : Expr → Option String
  | .ident n => some n
  | .varRef n => some n
  | _ => none

/-- A value of the dynamically typed `defined_at` field of a Symbol
("the AST node where this symbol was defined"). -/
inductive AstNode where
  | stmtNode (s : Stmt)
  | exprNode (e : Expr)
  | importItemNode (name : String) (aliasName : Option String)

/-- The Symbol dataclass of symbols.py. -/
structure Symbol where
  name : String
  symbolType : SymbolType
  definedAt : AstNode
  modulePath : String

/-- One Scope of symbols.py, stored in an arena: the parent link is the index
of the enclosing scope, and `symbols` is the insertion-ordered name-to-symbol
dictionary.  The `children` list of the Python class is write-only bookkeeping
(no pass ever reads it) and is derivable from the parent links, so it is not
stored. -/
structure ScopeData where
  parent : Option Nat
  symbols : List (String × Symbol)

/-- `Scope.add` of symbols.py: duplicate names in one scope raise SymbolError. -/
def scopeAdd (sd : ScopeData) (sym : Symbol) : Except String ScopeData :=
  if (sd.symbols.find? (fun kv => kv.1 == sym.name)).isSome then
    .error ("Name \x27" ++ sym.name ++ "\x27 is already defined in this scope.")
  else
    .ok { sd with symbols := sd.symbols ++ [(sym.name, sym)] }

/-- `Scope.find` of symbols.py: local dictionary lookup, then (when the
recursive flag is set) a walk up the parent links.  The fuel bounds the walk;
the builder only ever creates parent links to already existing scopes, so an
arena-length fuel always suffices. -/
def scopeFind (arena : List ScopeData) : Nat → Nat → String → Bool → Option Symbol
  | 0, _, _, _ => none
  | fuel + 1, idx, name, recursive =>
    match arena.get? idx with
    | none => none
    | some sd =>
      match sd.symbols.find? (fun kv => kv.1 == name) with
      | some kv => some kv.2
      | none =>
        if recursive then
          match sd.parent with
          | some p => scopeFind arena fuel p name true
          | none => none
        else none

/-- Errors of the symbol-table builder: SymbolError, plus the AttributeError a
dynamically typed attribute access would raise in Python. -/
inductive BuildErr where
  | symbolError (msg : String)
  | attrError (msg : String)

/-- The mutable state of a SymbolTableBuilder (symbols.py): the scope arena
(the Python heap of Scope objects, shared by every builder of one compiler
run), the current scope, the root scope and the path of the module being
built. -/
structure BState where
  arena : List ScopeData
  currentScope : Option Nat
  rootScope : Option Nat
  modulePath : String

/-- `SymbolTableBuilder.enter_scope`. -/
def enterScope (st : BState) : BState :=
  let idx := st.arena.length
  { st with
    arena := st.arena ++ [⟨st.currentScope, []⟩]
    currentScope := some idx
    rootScope := match st.rootScope with | none => some idx | some r => some r }

/-- `SymbolTableBuilder.exit_scope`: moves to the parent only when the current
scope has one. -/
def exitScope (st : BState) : BState :=
  match st.currentScope with
  | none => st
  | some idx =>
    match st.arena.get? idx with
    | none => st
    | some sd =>
      match sd.parent with
      | some p => { st with currentScope := some p }
      | none => st

/-- `self.current_scope.add(symbol)` as used throughout the builder. -/
def addToCurrent (st : BState) (sym : Symbol) : Except BuildErr BState :=
  match st.currentScope with
  | none => .error (.attrError "NoneType object has no attribute add")
  | some idx =>
    match st.arena.get? idx with
    | none => .error (.attrError "dangling scope reference")
    | some sd =>
      match scopeAdd sd sym with
      | .error m => .error (.symbolError m)
      | .ok sd2 => .ok { st with arena := st.arena.set idx sd2 }

mutual

/-- The visit dispatch of SymbolTableBuilder for one statement (symbols.py).
Each case is the corresponding visit method; statements without a visit method
fall back to the generic visitor, which has no observable effect because the
builder records nothing for expressions.  The parameter `sc` is the value of
the scope attribute of the node being visited (for statements inside a block,
`visit_Block` has just overwritten it with the current scope; for top-level
statements it is the attribute the node already carried), so the node the
Python code manipulates is `s.setScope sc`; passing it separately keeps the
recursion structural.  The returned statement is that node after the builder
has annotated the statements of its nested blocks; symbols capture the node as
a snapshot, which agrees with the Python reference semantics wherever a
`defined_at` field is later read (only macro declarations, whose bodies the
builder never visits). -/
def buildStmt (st : BState) (sc : Option Nat) : Stmt → Except BuildErr (Stmt × BState)
  | .fnDecl _ name params body => do
    let node := Stmt.fnDecl sc name params body
    let st ← addToCurrent st ⟨name, .fnSym, .stmtNode node, st.modulePath⟩
    let st := enterScope st
    let st ← params.foldlM
      (fun acc p => addToCurrent acc ⟨p, .varSym, .exprNode (.ident p), acc.modulePath⟩) st
    let (body2, st) ← buildBlock st body
    pure (.fnDecl sc name params body2, exitScope st)
  | .macroDecl _ name params body => do
    let node := Stmt.macroDecl sc name params body
    let st ← addToCurrent st ⟨name, .macroSym, .stmtNode node, st.modulePath⟩
    pure (node, st)
  | .onBlock _ eventType body => do
    let st := enterScope st
    let (body2, st) ← buildBlock st body
    pure (.onBlock sc eventType body2, exitScope st)
  | .ifStmt _ cond ifBody elseBody => do
    let st := enterScope st
    let (ib2, st) ← buildBlock st ifBody
    let st := exitScope st
    match elseBody with
    | none => pure (.ifStmt sc cond ib2 none, st)
    | some eb => do
      let st := enterScope st
      let (eb2, st) ← buildBlock st eb
      pure (.ifStmt sc cond ib2 (some eb2), exitScope st)
  | .forStmt _ vt vn iterable body => do
    let st := enterScope st
    let st ← addToCurrent st
      ⟨vn, .varSym, .stmtNode (.forStmt sc vt vn iterable body), st.modulePath⟩
    let (body2, st) ← buildBlock st body
    pure (.forStmt sc vt vn iterable body2, exitScope st)
  | .whileStmt _ cond body => do
    let st := enterScope st
    let (body2, st) ← buildBlock st body
    pure (.whileStmt sc cond body2, exitScope st)
  | .importStmt _ path isStar items =>
    if isStar then
      pure (.importStmt sc path isStar items, st)
    else do
      let st ← items.foldlM
        (fun acc it =>
          addToCurrent acc
            ⟨it.2.getD it.1, .importSym, .importItemNode it.1 it.2, acc.modulePath⟩) st
      pure (.importStmt sc path isStar items, st)
  | .assign _ target value =>
    match exprName target with
    | none => .error (.attrError "assignment target has no name attribute")
    | some n =>
      match st.currentScope with
      | none => .error (.attrError "NoneType object has no attribute find")
      | some idx =>
        if (scopeFind st.arena (st.arena.length + 1) idx n false).isSome then
          pure (.assign sc target value, st)
        else do
          let st ← addToCurrent st
            ⟨n, .varSym, .stmtNode (.assign sc target value), st.modulePath⟩
          pure (.assign sc target value, st)
  | .callStmt _ callee args => pure (.callStmt sc callee args, st)

/-- `SymbolTableBuilder.visit_Block`: each statement of a block first receives
the current scope in its scope attribute and is then visited. -/
def buildBlock (st : BState) : List Stmt → Except BuildErr (List Stmt × BState)
  | [] => pure ([], st)
  | s :: rest => do
    let (s2, st2) ← buildStmt st st.currentScope s
    let (rest2, st3) ← buildBlock st2 rest
    pure (s2 :: rest2, st3)

end

/-- The traversal of module-level statements by `visit_Module`, which uses the
generic visitor and therefore does NOT assign scope attributes to the
top-level statements (each keeps its existing attribute). -/
def buildTopStmts (st : BState) : List Stmt → Except BuildErr (List Stmt × BState)
  | [] => pure ([], st)
  | s :: rest => do
    let (s2, st2) ← buildStmt st s.scopeOf s
    let (rest2, st3) ← buildTopStmts st2 rest
    pure (s2 :: rest2, st3)

/-- `SymbolTableBuilder.build` on one module (`visit_Module`): enter the module
scope, attach it to the module node, visit the children generically, exit.
The arena argument is the heap of scopes already created for other modules. -/
def buildModule (arena : List ScopeData) (path : String) (m : Module) :
    Except BuildErr (Module × List ScopeData) := do
  let st0 : BState := ⟨arena, none, none, path⟩
  let st1 := enterScope st0
  let (stmts2, st2) ← buildTopStmts st1 m.statements
  let st3 := exitScope st2
  pure ({ path := m.path, statements := stmts2, scope := st1.currentScope }, st3.arena)

/-- The per-module symbol-table loop of the driver (`__main__.py` steps 3 and 5):
a fresh builder per module, all sharing one heap of scopes. -/
def buildModules (arena : List ScopeData) :
    List (String × Module) → Except BuildErr (List (String × Module) × List ScopeData)
  | [] => pure ([], arena)
  | (p, m) :: rest => do
    let (m2, arena2) ← buildModule arena p m
    let (rest2, arena3) ← buildModules arena2 rest
    pure ((p, m2) :: rest2, arena3)

/-! ## Macro expansion (macros.py) -/

/-- Insertion into a Python dict: a later binding for an existing key
overwrites it in place, otherwise the pair is appended. -/
def dictInsert (m : List (String × Expr)) (k : String) (v : Expr) : List (String × Expr) :=
  if m.any (fun kv => kv.1 == k) then
    m.map (fun kv => if kv.1 == k then (k, v) else kv)
  else m ++ [(k, v)]

/-- Python `dict.get(key, default)` lookup (without the default). -/
def dictGet? (m : List (String × Expr)) (k : String) : Option Expr :=
  (m.find? (fun kv => kv.1 == k)).map (·.2)

/-- The `arg_map = dict(zip(macro_decl.params, node.expression.arguments))`
construction of `MacroExpander.visit_CallStatement`. -/
def makeArgMap (params : List String) (args : List Expr) : List (String × Expr) :=
  (params.zip args).foldl (fun m kv => dictInsert m kv.1 kv.2) []

mutual

/-- `SubstitutionVisitor` of macros.py on an expression: `visit_Identifier`
returns the argument expression when the identifier names a macro parameter
(and does not visit the returned expression again - the transformer stores
whatever the visitor returns), every other node is rebuilt by the generic
transformer.  Variable nodes are a different class from Identifier and are
therefore never substituted. -/
def substExpr (m : List (String × Expr)) : Expr → Expr
  | .ident n => (dictGet? m n).getD (.ident n)
  | .strLit v => .strLit v
  | .numLit v => .numLit v
  | .varRef n => .varRef n
  | .binary l op r => .binary (substExpr m l) op (substExpr m r)
  | .callE c args => .callE (substExpr m c) (substExprList m args)

/-- Generic-transformer traversal of an expression list field. -/
def substExprList (m : List (String × Expr)) : List Expr → List Expr
  | [] => []
  | e :: rest => substExpr m e :: substExprList m rest

/-- `SubstitutionVisitor` on a statement: the generic transformer visits every
node-valued field, so in particular the Identifier in an assignment target and
the callee Identifier of a call are substituted exactly like expression
occurrences.  (The Identifier nodes held by import items and by function,
macro and for-loop declarations would be rewritten the same way in Python;
they are stored as plain strings here, see `Stmt`.) -/
def substStmt (m : List (String × Expr)) : Stmt → Stmt
  | .importStmt sc p star items => .importStmt sc p star items
  | .fnDecl sc n ps b => .fnDecl sc n ps (substStmtList m b)
  | .macroDecl sc n ps b => .macroDecl sc n ps (substStmtList m b)
  | .onBlock sc e b => .onBlock sc e (substStmtList m b)
  | .ifStmt sc c ib eb =>
    .ifStmt sc (substExpr m c) (substStmtList m ib)
      (match eb with | none => none | some b => some (substStmtList m b))
  | .forStmt sc vt vn it b => .forStmt sc vt vn (substExpr m it) (substStmtList m b)
  | .whileStmt sc c b => .whileStmt sc (substExpr m c) (substStmtList m b)
  | .assign sc t v => .assign sc (substExpr m t) (substExpr m v)
  | .callStmt sc c args => .callStmt sc (substExpr m c) (substExprList m args)

/-- Generic-transformer traversal of a statement list field under
substitution (the substituter returns exactly one node per statement). -/
def substStmtList (m : List (String × Expr)) : List Stmt → List Stmt
  | [] => []
  | s :: rest => substStmt m s :: substStmtList m rest

end

/-- Errors of the macro expander: MacroError, plus the AttributeError a
dynamically typed attribute access would raise. -/
inductive ExpandErr where
  | macroError (msg : String)
  | attrError (msg : String)

/-- The module scan inside `MacroExpander._find_symbol`: iterate over all
modules in insertion order and all their top-level statements, returning the
first macro declaration whose declared name equals the looked-up name.
Note that the scan uses the locally visible name that was looked up, which
for an aliased import is the alias, not the import target's declared name. -/
def findMacroDeclInModules (mods : List (String × Module)) (name : String) :
    Option (String × Stmt) :=
  mods.findSome? (fun pm =>
    pm.2.statements.findSome? (fun s =>
      match s with
      | .macroDecl sc n ps b =>
        if n == name then some (pm.1, Stmt.macroDecl sc n ps b) else none
      | _ => none))

/-- `MacroExpander._find_symbol` of macros.py: recursive scope-chain lookup
of the callee name; when the found symbol is of kind import, search all
modules for a macro declaration under that same name, falling back to
the import symbol itself when none exists. -/
def findSymbol (mods : List (String × Module)) (arena : List ScopeData)
    (name : String) (scope : Option Nat) : Option Symbol :=
  match scope with
  | none => none
  | some idx =>
    match scopeFind arena (arena.length + 1) idx name true with
    | none => none
    | some sym =>
      match sym.symbolType with
      | .importSym =>
        match findMacroDeclInModules mods name with
        | some (mpath, decl) => some ⟨name, .macroSym, .stmtNode decl, mpath⟩
        | none => some sym
      | _ => some sym

mutual

/-- `MacroExpander.visit_CallStatement` together with the generic transformer
cases of `NodeTransformer.generic_visit` (ast.py): a call statement resolving
to a macro symbol is replaced by the substituted copy of the macro body
(a statement list), any other call statement is returned unchanged, and every
other statement is rebuilt with its nested blocks expanded.  The generic
transformer has no expression visitor, so expressions are rebuilt unchanged
and appear here verbatim.  A visitor result that is a list is spliced into
the enclosing statement list WITHOUT being visited again (generic_visit
iterates over the original list and merely extends the replacement list with
the splice), which `expandStmtList` reproduces. -/
def expandStmt (mods : List (String × Module)) (arena : List ScopeData) :
    Stmt → Except ExpandErr (List Stmt)
  | .callStmt sc callee args =>
    match exprName callee with
    | none => .error (.attrError "call callee has no name attribute")
    | some calleeName =>
      match findSymbol mods arena calleeName sc with
      | none => pure [.callStmt sc callee args]
      | some sym =>
        match sym.symbolType with
        | .macroSym =>
          match sym.definedAt with
          | .stmtNode (.macroDecl _ _ mparams mbody) =>
            if args.length ≠ mparams.length then
              .error (.macroError ("Macro \x27" ++ calleeName ++ "\x27 expects "
                ++ toString mparams.length ++ " arguments, but got "
                ++ toString args.length ++ "."))
            else
              let argMap := makeArgMap mparams args
              pure (substStmtList argMap mbody)
          | _ =>
            .error (.macroError "Symbol table points to a non-macro node for a macro symbol.")
        | _ => pure [.callStmt sc callee args]
  | .importStmt sc p star items => pure [.importStmt sc p star items]
  | .fnDecl sc n ps b => do pure [.fnDecl sc n ps (← expandStmtList mods arena b)]
  | .macroDecl sc n ps b => do pure [.macroDecl sc n ps (← expandStmtList mods arena b)]
  | .onBlock sc e b => do pure [.onBlock sc e (← expandStmtList mods arena b)]
  | .ifStmt sc c ib eb => do
    let ib2 ← expandStmtList mods arena ib
    match eb with
    | none => pure [.ifStmt sc c ib2 none]
    | some b => do pure [.ifStmt sc c ib2 (some (← expandStmtList mods arena b))]
  | .forStmt sc vt vn it b => do pure [.forStmt sc vt vn it (← expandStmtList mods arena b)]
  | .whileStmt sc c b => do pure [.whileStmt sc c (← expandStmtList mods arena b)]
  | .assign sc t v => pure [.assign sc t v]

/-- `NodeTransformer.generic_visit` on a statement list field: each original
element is visited, and a list result is spliced in without re-processing. -/
def expandStmtList (mods : List (String × Module)) (arena : List ScopeData) :
    List Stmt → Except ExpandErr (List Stmt)
  | [] => pure []
  | s :: rest => do pure ((← expandStmt mods arena s) ++ (← expandStmtList mods arena rest))

end

/-- `MacroExpander.expand` on one module (`visit` on the Module node falls to
the generic transformer, which processes the statement list).  The Python
expander mutates the shared module map in place while iterating, but the only
nodes it rewrites inside other modules are macro bodies whose statements carry
no scope and are therefore left unchanged, so per-module expansion against the
original map is equivalent. -/
def expandModule (mods : List (String × Module)) (arena : List ScopeData)
    (m : Module) : Except ExpandErr Module := do
  pure { m with statements := (← expandStmtList mods arena m.statements) }

/-- Step 4 of the driver (`__main__.py`): expand every module of the map. -/
def expandModules (mods : List (String × Module)) (arena : List ScopeData) :
    Except ExpandErr (List (String × Module)) :=
  mods.mapM (fun pm => do pure (pm.1, ← expandModule mods arena pm.2))

/-! ## Emitter (emitter.py)

File-system writes are modelled by accumulating `(function path, lines)`
pairs in the emitter state; `pack.mcmeta`, the tag JSON files and the
directory setup are plain I/O outside the lowering rules and are not
modelled.  The per-module path computation
`_oort_path_to_function_base(current_module_path.relative_to(project_dir))`
is an injected function `pathBase` of the configuration, since it only
performs path-string arithmetic.

The emitter reads `self.config.build.debug_message` at six places
(`Emitter.__init__`, twice in `emit_all`, `_write_mcfunction`,
`visit_FunctionDeclaration`, `visit_OnBlock`), but the `BuildConfig`
dataclass of config.py declares only `output`, `datapack_name` and `clean`,
and `ProjectConfig.from_project_dir` is the only constructor in the
repository - so each of these accesses raises AttributeError, which the
driver's except clause does not catch.  The access is therefore embedded as
an explicit parameter `dbg` of the emitter functions: instantiating it with
`debugMessageAttr` gives the faithful behaviour (the access raises), while
`debugMessageOff` states what the remaining lowering logic produces were the
attribute present and False (no debug printing); the guarded `print` calls
themselves are console I/O and are not otherwise modelled. -/

/-- The BuildConfig dataclass of config.py.  These three are the ONLY fields
it declares; in particular there is no `debug_message`. -/
structure BuildConfig where
  output : String
  datapackName : String
  clean : Bool := true

/-- The attribute access `config.build.debug_message` as the program performs
it: `BuildConfig` defines no such field, so on every instance the access
raises AttributeError. -/
def debugMessageAttr : BuildConfig → Except String Bool :=
  fun _ =>
    .error "AttributeError: \x27BuildConfig\x27 object has no attribute \x27debug_message\x27"

/-- The counterfactual attribute access used to state the lowering rules
modulo the defect: as if `BuildConfig` carried a `debug_message` field
holding False. -/
def debugMessageOff : BuildConfig → Except String Bool :=
  fun _ => .ok false

/-- `BUILTIN_COMMANDS` of emitter.py. -/
def BUILTIN_COMMANDS : List String :=
  ["say", "give", "kill", "scoreboard", "execute", "schedule", "function", "tag"]

/-- `VARS_OBJECTIVE` of emitter.py. -/
def VARS_OBJECTIVE : String := "oort_vars"

/-- The Python `type(...)` rendering used in the diagnostic comment lines. -/
def pyTypeName : Expr → String
  | .ident _ => "<class \x27oortc.ast.Identifier\x27>"
  | .strLit _ => "<class \x27oortc.ast.StringLiteral\x27>"
  | .numLit _ => "<class \x27oortc.ast.NumberLiteral\x27>"
  | .varRef _ => "<class \x27oortc.ast.Variable\x27>"
  | .binary _ _ _ => "<class \x27oortc.ast.BinaryExpr\x27>"
  | .callE _ _ => "<class \x27oortc.ast.CallExpression\x27>"

/-- `Emitter._format_expr`: strings unquoted, numbers as digits, identifiers
and variables as bare names, binary expressions as `left op right`, anything
else (only call expressions remain) as the empty string. -/
def formatExpr : Expr → String
  | .strLit v => v
  | .numLit v => toString v
  | .ident n => n
  | .varRef n => n
  | .binary l op r => formatExpr l ++ " " ++ op ++ " " ++ formatExpr r
  | .callE _ _ => ""

/-- `Emitter._format_condition`: lowers a binary comparison to an
`execute if score` command running `funcToRun`.  For a numeric-literal right
operand the operator picks the `matches` range (the Python code computes
`int(right) - 1` and `int(right) + 1` from the formatted string, which equals
arithmetic on the literal value); otherwise the two-variable form is used. -/
def formatCondition (cond : Expr) (funcToRun : String) : String :=
  match cond with
  | .binary l op r =>
    let left := formatExpr l
    let right := formatExpr r
    match r with
    | .numLit v =>
      if op == "==" then
        "execute if score " ++ left ++ " " ++ VARS_OBJECTIVE ++ " matches " ++ right
          ++ " run function " ++ funcToRun
      else if op == "<" then
        "execute if score " ++ left ++ " " ++ VARS_OBJECTIVE ++ " matches .."
          ++ toString (v - 1) ++ " run function " ++ funcToRun
      else if op == "<=" then
        "execute if score " ++ left ++ " " ++ VARS_OBJECTIVE ++ " matches .."
          ++ right ++ " run function " ++ funcToRun
      else if op == ">" then
        "execute if score " ++ left ++ " " ++ VARS_OBJECTIVE ++ " matches "
          ++ toString (v + 1) ++ ".. run function " ++ funcToRun
      else if op == ">=" then
        "execute if score " ++ left ++ " " ++ VARS_OBJECTIVE ++ " matches "
          ++ right ++ ".. run function " ++ funcToRun
      else
        "# ERROR: Unsupported operator \x27" ++ op ++ "\x27 for literal comparison"
    | _ =>
      "execute if score " ++ left ++ " " ++ VARS_OBJECTIVE ++ " " ++ op ++ " "
        ++ right ++ " " ++ VARS_OBJECTIVE ++ " run function " ++ funcToRun
  | c => "# ERROR: Unsupported condition type " ++ pyTypeName c

/-- The emitter configuration slice used by the lowering rules: the package
namespace, the module-path-to-function-base computation, and the build
section of the project configuration (carried so that the emitter\x27s
`config.build.debug_message` accesses can be performed on it). -/
structure EmCfg where
  ns : String
  pathBase : String → String
  build : BuildConfig

/-- The mutable emitter state: the synthetic-function counter (shared across
the whole build), the current output buffer, and the mcfunction files written
so far in write order. -/
structure EmState where
  functionCount : Nat := 0
  outputLines : List String := []
  files : List (String × List String) := []

/-- `Emitter._write_mcfunction`: the `config.build.debug_message` check
guarding a debug print comes first (and raises under `debugMessageAttr`),
then the file write. -/
def emWrite (dbg : BuildConfig → Except String Bool) (cfg : EmCfg) (st : EmState)
    (path : String) (lines : List String) : Except String EmState := do
  let _ ← dbg cfg.build
  pure { st with files := st.files ++ [(path, lines)] }

/-- `Emitter._find_function_path`: resolve the callee in the statement\x27s
scope chain; a function symbol yields its fully qualified name. -/
def findFunctionPath (cfg : EmCfg) (arena : List ScopeData) (name : String)
    (scope : Option Nat) : Option String :=
  match scope with
  | none => none
  | some idx =>
    match scopeFind arena (arena.length + 1) idx name true with
    | none => none
    | some sym =>
      match sym.symbolType with
      | .fnSym => some (cfg.ns ++ ":" ++ cfg.pathBase sym.modulePath ++ "/" ++ name)
      | _ => none

mutual

/-- The code-generation visit dispatch of emitter.py for one statement.
`moduleBase` is the function base of the module currently being emitted.
`visit_FunctionDeclaration` and `visit_OnBlock` begin with the
`config.build.debug_message` check (lines 123 and 135); the other visit
methods perform no such access themselves, though any method that writes a
file inherits the check inside `_write_mcfunction`. -/
def emitStmt (dbg : BuildConfig → Except String Bool) (cfg : EmCfg)
    (arena : List ScopeData) (moduleBase : String) (st : EmState) :
    Stmt → Except String EmState
  | .fnDecl _ name _ body => do
    let _ ← dbg cfg.build
    let st := { st with outputLines := st.outputLines ++ ["# Function: " ++ name] }
    let st ← emitStmts dbg cfg arena moduleBase st body
    let st ← emWrite dbg cfg st (moduleBase ++ "/" ++ name) st.outputLines
    pure { st with outputLines := [] }
  | .onBlock _ eventType body => do
    let _ ← dbg cfg.build
    let st := { st with outputLines := st.outputLines ++ ["# Event: on " ++ eventType] }
    let st :=
      if eventType == "load" then
        { st with outputLines :=
            st.outputLines ++ ["scoreboard objectives add " ++ VARS_OBJECTIVE ++ " dummy"] }
      else st
    let st ← emitStmts dbg cfg arena moduleBase st body
    let st ← emWrite dbg cfg st (moduleBase ++ "/on_" ++ eventType) st.outputLines
    pure { st with outputLines := [] }
  | .callStmt sc callee args =>
    match exprName callee with
    | none => .error "call callee has no name attribute"
    | some name =>
      if BUILTIN_COMMANDS.contains name then
        let argStr := String.intercalate " " (args.map formatExpr)
        pure { st with outputLines := st.outputLines ++ [name ++ " " ++ argStr] }
      else
        match findFunctionPath cfg arena name sc with
        | some funcPath =>
          pure { st with outputLines := st.outputLines ++ ["function " ++ funcPath] }
        | none =>
          pure { st with outputLines :=
            st.outputLines ++ ["# ERROR: Unresolved function call to \x27" ++ name ++ "\x27"] }
  | .ifStmt _ cond ifBody _ => do
    -- `Emitter._generate_function`, inlined to keep the recursion
    -- structural: bump the shared counter, emit the then-block into a fresh
    -- buffer, write it as `<base>_<count>`, restore the buffer, and use the
    -- namespaced name in the condition line.
    let newCount := st.functionCount + 1
    let funcPath := moduleBase ++ "/if_body" ++ "_" ++ toString newCount
    let saved := st.outputLines
    let st := { st with functionCount := newCount, outputLines := [] }
    let st ← emitStmts dbg cfg arena moduleBase st ifBody
    let st ← emWrite dbg cfg st funcPath st.outputLines
    let st := { st with outputLines := saved }
    let bodyFuncName := cfg.ns ++ ":" ++ funcPath
    pure { st with outputLines := st.outputLines ++ [formatCondition cond bodyFuncName] }
  | .forStmt _ _ varName iterable body => do
    -- `_generate_function` inlined, as in the conditional case.
    let newCount := st.functionCount + 1
    let funcPath := moduleBase ++ "/for_loop_" ++ varName ++ "_" ++ toString newCount
    let saved := st.outputLines
    let st := { st with functionCount := newCount, outputLines := [] }
    let st ← emitStmts dbg cfg arena moduleBase st body
    let st ← emWrite dbg cfg st funcPath st.outputLines
    let st := { st with outputLines := saved }
    let bodyFuncName := cfg.ns ++ ":" ++ funcPath
    pure { st with outputLines := st.outputLines
      ++ ["execute as " ++ formatExpr iterable ++ " at @s run function " ++ bodyFuncName] }
  | .whileStmt _ cond body => do
    let newCount := st.functionCount + 1
    let whileBase := moduleBase ++ "/while_" ++ toString newCount
    let checkFuncPath := whileBase ++ "_check"
    let bodyFuncPath := whileBase ++ "_body"
    let namespacedCheck := cfg.ns ++ ":" ++ checkFuncPath
    let namespacedBody := cfg.ns ++ ":" ++ bodyFuncPath
    let saved := st.outputLines
    let st := { st with functionCount := newCount, outputLines := [] }
    let st ← emitStmts dbg cfg arena moduleBase st body
    let st := { st with outputLines :=
      st.outputLines ++ ["schedule function " ++ namespacedCheck ++ " 1t"] }
    let st ← emWrite dbg cfg st bodyFuncPath st.outputLines
    let st := { st with outputLines := saved }
    let checkLines :=
      ["# While loop check for: " ++ formatExpr cond, formatCondition cond namespacedBody]
    let st ← emWrite dbg cfg st checkFuncPath checkLines
    pure { st with outputLines := st.outputLines ++ ["function " ++ namespacedCheck] }
  | .assign _ target value =>
    match exprName target with
    | none => .error "assignment target has no name attribute"
    | some varName =>
      match value with
      | .numLit v =>
        pure { st with outputLines := st.outputLines
          ++ ["scoreboard players set " ++ varName ++ " " ++ VARS_OBJECTIVE ++ " " ++ toString v] }
      | .ident n =>
        pure { st with outputLines := st.outputLines
          ++ ["scoreboard players operation " ++ varName ++ " " ++ VARS_OBJECTIVE ++ " = "
              ++ n ++ " " ++ VARS_OBJECTIVE] }
      | .varRef n =>
        pure { st with outputLines := st.outputLines
          ++ ["scoreboard players operation " ++ varName ++ " " ++ VARS_OBJECTIVE ++ " = "
              ++ n ++ " " ++ VARS_OBJECTIVE] }
      | .binary l op r =>
        let leftVar := formatExpr l
        let rightVar := formatExpr r
        let st := { st with outputLines := st.outputLines
          ++ ["scoreboard players operation " ++ varName ++ " " ++ VARS_OBJECTIVE ++ " = "
              ++ leftVar ++ " " ++ VARS_OBJECTIVE] }
        let isLitIncDec :=
          (op == "+" || op == "-") && (match r with | .numLit _ => true | _ => false)
        if isLitIncDec then
          let opWord := if op == "+" then "add" else "remove"
          pure { st with outputLines := st.outputLines
            ++ ["scoreboard players " ++ opWord ++ " " ++ varName ++ " " ++ VARS_OBJECTIVE
                ++ " " ++ rightVar] }
        else if op == "+" || op == "-" || op == "*" || op == "/" || op == "%" then
          let opAssign :=
            if op == "+" then "+=" else if op == "-" then "-="
            else if op == "*" then "*=" else if op == "/" then "/=" else "%="
          pure { st with outputLines := st.outputLines
            ++ ["scoreboard players operation " ++ varName ++ " " ++ VARS_OBJECTIVE ++ " "
                ++ opAssign ++ " " ++ rightVar ++ " " ++ VARS_OBJECTIVE] }
        else
          pure { st with outputLines := st.outputLines
            ++ ["# ERROR: Unsupported binary operator \x27" ++ op ++ "\x27 in assignment"] }
      | other =>
        pure { st with outputLines := st.outputLines
          ++ ["# ERROR: Unsupported assignment for value of type " ++ pyTypeName other] }
  | .importStmt _ _ _ _ => pure st
  | .macroDecl _ _ _ _ => pure st

/-- `visit_Block` / `generic_visit` of the emitter: emit each statement in
order. -/
def emitStmts (dbg : BuildConfig → Except String Bool) (cfg : EmCfg)
    (arena : List ScopeData) (moduleBase : String) (st : EmState) :
    List Stmt → Except String EmState
  | [] => pure st
  | s :: rest => do
    let st ← emitStmt dbg cfg arena moduleBase st s
    emitStmts dbg cfg arena moduleBase st rest

end

/-- One iteration of the `emit_all` module loop: `visit` on a Module node
falls back to the generic visitor, emitting each top-level statement with the
module\x27s function base. -/
def emitModule (dbg : BuildConfig → Except String Bool) (cfg : EmCfg)
    (arena : List ScopeData) (m : Module) (st : EmState) : Except String EmState :=
  emitStmts dbg cfg arena (cfg.pathBase m.path) st m.statements

/-- `Emitter.__init__`: the constructor begins with the
`config.build.debug_message` check of emitter.py line 24 (the remaining
lines only compute directory paths), so constructing the emitter already
raises under the faithful attribute access. -/
def emitterInit (dbg : BuildConfig → Except String Bool) (cfg : EmCfg) :
    Except String Unit := do
  let _ ← dbg cfg.build
  pure ()

/-- The per-module loop of `emit_all`: each iteration first performs the
debug_message check of emitter.py line 42, then visits the module. -/
def emitAllModules (dbg : BuildConfig → Except String Bool) (cfg : EmCfg)
    (arena : List ScopeData) : List (String × Module) → EmState → Except String EmState
  | [], st => pure st
  | (_, m) :: rest, st => do
    let _ ← dbg cfg.build
    let st ← emitModule dbg cfg arena m st
    emitAllModules dbg cfg arena rest st

/-- `Emitter.emit_all`: the debug check of line 35, then the directory setup
and descriptor writes (plain file I/O, not modelled), then the module loop. -/
def emitAll (dbg : BuildConfig → Except String Bool) (cfg : EmCfg)
    (arena : List ScopeData) (mods : List (String × Module)) (st : EmState) :
    Except String EmState := do
  let _ ← dbg cfg.build
  emitAllModules dbg cfg arena mods st

/-! ## Lexer (lexer.py)

The Python lexer matches a single compiled alternation of the ordered
`token_specification` patterns at each position (`re.match` tries the
alternatives left to right and takes the first that matches).  Each
alternative is a simple pattern, embedded below as a direct matcher on the
remaining character list; the previous character is tracked for the `\b` word
boundaries of the keyword patterns. -/

/-- The Token dataclass of lexer.py. -/
structure Token where
  type : String
  value : String
  line : Nat
  column : Nat
  startChar : Nat
  endChar : Nat

/-- The regex word-character class `\w` over the ASCII source alphabet. -/
def isWordChar (c : Char) : Bool := c.isAlpha || c.isDigit || c == '_'

/-- The opening curly brace character (the LBRACE pattern). -/
def lbraceChar : Char := Char.ofNat 123

/-- The closing curly brace character (the RBRACE pattern). -/
def rbraceChar : Char := Char.ofNat 125

/-- The pattern `#.*`: a hash then everything up to the end of the line. -/
def matchComment : List Char → Option (List Char)
  | '#' :: rest => some ('#' :: rest.takeWhile (fun c => c ≠ '\n'))
  | _ => none

/-- The pattern `[ \t]+`. -/
def matchWhitespaceRun (cs : List Char) : Option (List Char) :=
  let r := cs.takeWhile (fun c => c == ' ' || c == '\t')
  if r.isEmpty then none else some r

/-- A fixed-text pattern such as an operator or punctuation mark. -/
def matchExact (pat : List Char) (cs : List Char) : Option (List Char) :=
  if pat.isPrefixOf cs then some pat else none

/-- A keyword pattern `\bkw\b`: the literal keyword with word boundaries on
both sides (the preceding character, when any, and the following character,
when any, must not be word characters; keywords consist of word characters,
so the boundary conditions reduce to exactly this). -/
def matchKeyword (prev : Option Char) (kw : List Char) (cs : List Char) :
    Option (List Char) :=
  let boundaryBefore := match prev with | none => true | some c => !isWordChar c
  let boundaryAfter := match cs.drop kw.length with | [] => true | c :: _ => !isWordChar c
  if kw.isPrefixOf cs && boundaryBefore && boundaryAfter then some kw else none

/-- The pattern `\d+`. -/
def matchNumberRun (cs : List Char) : Option (List Char) :=
  let r := cs.takeWhile Char.isDigit
  if r.isEmpty then none else some r

/-- The pattern `"[^"]*"`: an opening quote, the longest run of non-quote
characters (which may include newlines), and a closing quote; without a
closing quote the alternative fails. -/
def matchStringLit : List Char → Option (List Char)
  | '"' :: rest =>
    let mid := rest.takeWhile (fun c => c ≠ '"')
    match rest.drop mid.length with
    | '"' :: _ => some ('"' :: (mid ++ ['"']))
    | _ => none
  | _ => none

/-- The pattern `@[apres]`. -/
def matchSelector : List Char → Option (List Char)
  | '@' :: c :: _ =>
    if c == 'a' || c == 'p' || c == 'r' || c == 'e' || c == 's' then some ['@', c] else none
  | _ => none

/-- The pattern `[a-zA-Z_][a-zA-Z0-9_]*`. -/
def matchIdentRun : List Char → Option (List Char)
  | [] => none
  | c :: rest =>
    if c.isAlpha || c == '_' then some (c :: rest.takeWhile isWordChar) else none

/-- The catch-all pattern `.`: any single character except a newline. -/
def matchAnyChar : List Char → Option (List Char)
  | [] => none
  | c :: _ => if c ≠ '\n' then some [c] else none

/-- The ordered `token_specification` list of lexer.py: pattern name and
matcher, tried first to last at every position. -/
def tokenSpecification : List (String × (Option Char → List Char → Option (List Char))) :=
  [ ("COMMENT", fun _ cs => matchComment cs)
  , ("WHITESPACE", fun _ cs => matchWhitespaceRun cs)
  , ("NEWLINE", fun _ cs => matchExact ['\n'] cs)
  , ("LBRACE", fun _ cs => matchExact [lbraceChar] cs)
  , ("RBRACE", fun _ cs => matchExact [rbraceChar] cs)
  , ("LPAREN", fun _ cs => matchExact ['('] cs)
  , ("RPAREN", fun _ cs => matchExact [')'] cs)
  , ("COMMA", fun _ cs => matchExact [','] cs)
  , ("SEMICOLON", fun _ cs => matchExact [';'] cs)
  , ("ASTERISK", fun _ cs => matchExact ['*'] cs)
  , ("EQUALS_EQUALS", fun _ cs => matchExact ['=', '='] cs)
  , ("NOT_EQUALS", fun _ cs => matchExact ['!', '='] cs)
  , ("GREATER_EQUALS", fun _ cs => matchExact ['>', '='] cs)
  , ("LESS_EQUALS", fun _ cs => matchExact ['<', '='] cs)
  , ("EQUALS", fun _ cs => matchExact ['='] cs)
  , ("GREATER", fun _ cs => matchExact ['>'] cs)
  , ("LESS", fun _ cs => matchExact ['<'] cs)
  , ("PLUS", fun _ cs => matchExact ['+'] cs)
  , ("MINUS", fun _ cs => matchExact ['-'] cs)
  , ("DIVIDE", fun _ cs => matchExact ['/'] cs)
  , ("KW_FN", fun prev cs => matchKeyword prev ['f', 'n'] cs)
  , ("KW_ON", fun prev cs => matchKeyword prev ['o', 'n'] cs)
  , ("KW_LOAD", fun prev cs => matchKeyword prev ['l', 'o', 'a', 'd'] cs)
  , ("KW_TICK", fun prev cs => matchKeyword prev ['t', 'i', 'c', 'k'] cs)
  , ("KW_IF", fun prev cs => matchKeyword prev ['i', 'f'] cs)
  , ("KW_ELSE", fun prev cs => matchKeyword prev ['e', 'l', 's', 'e'] cs)
  , ("KW_FROM", fun prev cs => matchKeyword prev ['f', 'r', 'o', 'm'] cs)
  , ("KW_IMPORT", fun prev cs => matchKeyword prev ['i', 'm', 'p', 'o', 'r', 't'] cs)
  , ("KW_AS", fun prev cs => matchKeyword prev ['a', 's'] cs)
  , ("KW_MACRO", fun prev cs => matchKeyword prev ['m', 'a', 'c', 'r', 'o'] cs)
  , ("KW_FOR", fun prev cs => matchKeyword prev ['f', 'o', 'r'] cs)
  , ("KW_IN", fun prev cs => matchKeyword prev ['i', 'n'] cs)
  , ("KW_WHILE", fun prev cs => matchKeyword prev ['w', 'h', 'i', 'l', 'e'] cs)
  , ("NUMBER", fun _ cs => matchNumberRun cs)
  , ("STRING", fun _ cs => matchStringLit cs)
  , ("SELECTOR", fun _ cs => matchSelector cs)
  , ("IDENT", fun _ cs => matchIdentRun cs)
  , ("MISMATCH", fun _ cs => matchAnyChar cs)
  ]

/-- First-alternative-wins matching of the compiled alternation at the current
position. -/
def firstMatch (prev : Option Char) (cs : List Char) : Option (String × List Char) :=
  tokenSpecification.findSome? (fun spec => (spec.2 prev cs).map (fun m => (spec.1, m)))

/-- The `tokenize` loop of lexer.py: repeatedly match at the current position,
updating position, line and column and accumulating tokens; newlines advance
the line counter and reset the column, whitespace and comments only advance
the column, a MISMATCH raises LexerError, and at the end of input an EOF token
is appended.  Every successful match consumes at least one character, so a
fuel of the source length always suffices; the out-of-fuel case is
unreachable. -/
def lexLoop : Nat → List Char → Option Char → Nat → Nat → Nat → List Token →
    Except String (List Token)
  | 0, _, _, _, _, _, _ => .error "lexer fuel exhausted"
  | _ + 1, [], _, pos, line, col, acc =>
    .ok (acc ++ [⟨"EOF", "", line, col, pos, pos⟩])
  | fuel + 1, cs, prev, pos, line, col, acc =>
    match firstMatch prev cs with
    | none =>
      .error ("Unexpected character at line " ++ toString line ++ ", column " ++ toString col)
    | some (kind, m) =>
      let len := m.length
      let rest := cs.drop len
      let prev2 := match m.getLast? with | some c => some c | none => prev
      if kind == "NEWLINE" then
        lexLoop fuel rest prev2 (pos + len) (line + 1) 1 acc
      else if kind == "WHITESPACE" || kind == "COMMENT" then
        lexLoop fuel rest prev2 (pos + len) line (col + len) acc
      else if kind == "MISMATCH" then
        .error ("Unexpected character \x27" ++ String.mk m ++ "\x27 at line "
          ++ toString line ++ ", column " ++ toString col)
      else
        lexLoop fuel rest prev2 (pos + len) line (col + len)
          (acc ++ [⟨kind, String.mk m, line, col, pos, pos + len⟩])

/-- `Lexer.tokenize` / the module-level `tokenize` convenience function. -/
def tokenize (source : String) : Except String (List Token) :=
  lexLoop (source.toList.length + 1) source.toList none 0 1 1 []

/-! ## Parser (parser.py)

The Python parser holds a token list and a current index and is embedded as
explicit state passing.  The token list produced by the lexer always ends in
an EOF token and `advance` never moves past it, so the index stays in range;
out-of-range accesses (unreachable on such inputs) read a default EOF token.
Python recursion has no structural measure here (the grammar is recursive),
so every parsing function burns one unit of fuel per call; any fuel larger
than the token count times the grammar depth suffices for the concrete runs
below. -/

/-- The PRECEDENCE table of parser.py: `PRECEDENCE.get(token.type, 0)`. -/
def getPrecedence (t : Token) : Nat :=
  if t.type == "EQUALS" then 1
  else if t.type == "EQUALS_EQUALS" then 2
  else if t.type == "NOT_EQUALS" then 2
  else if t.type == "LESS" then 2
  else if t.type == "GREATER" then 2
  else if t.type == "LESS_EQUALS" then 2
  else if t.type == "GREATER_EQUALS" then 2
  else if t.type == "PLUS" then 3
  else if t.type == "MINUS" then 3
  else if t.type == "ASTERISK" then 4
  else if t.type == "DIVIDE" then 4
  else if t.type == "LPAREN" then 5
  else 0

/-- The parser state: token list, current index, and the file name used in
error messages. -/
structure PState where
  tokens : List Token
  current : Nat
  fileName : String

/-- The default token read on an out-of-range index (unreachable for
EOF-terminated token lists). -/
def eofFallback : Token := ⟨"EOF", "", 0, 0, 0, 0⟩

/-- `Parser.peek`. -/
def peekT (s : PState) : Token := s.tokens.getD s.current eofFallback

/-- `Parser.previous`. -/
def prevT (s : PState) : Token := s.tokens.getD (s.current - 1) eofFallback

/-- `Parser.is_at_end`. -/
def isAtEnd (s : PState) : Bool := (peekT s).type == "EOF"

/-- `Parser.advance` (the index moves only when not at the end). -/
def advanceT (s : PState) : PState :=
  if isAtEnd s then s else { s with current := s.current + 1 }

/-- `Parser.check`. -/
def checkT (s : PState) (t : String) : Bool :=
  if isAtEnd s then false else (peekT s).type == t

/-- `Parser.check_next`. -/
def checkNextT (s : PState) (t : String) : Bool :=
  let nxt := s.tokens.getD (s.current + 1) eofFallback
  if isAtEnd s || nxt.type == "EOF" then false else nxt.type == t

/-- `Parser.match` for a single token type: consume the token when it is next. -/
def matchT (s : PState) (t : String) : Bool × PState :=
  if checkT s t then (true, advanceT s) else (false, s)

/-- `Parser._error` message formatting. -/
def parseErrorMsg (s : PState) (tok : Token) (message : String) : String :=
  if tok.type == "EOF" then
    "Parser error at end of file in " ++ s.fileName ++ ": " ++ message
  else
    "Parser error in " ++ s.fileName ++ " at line " ++ toString tok.line
      ++ ", column " ++ toString tok.column ++ " near \x27" ++ tok.value ++ "\x27: " ++ message

/-- `Parser.consume`. -/
def consumeT (s : PState) (t : String) (message : String) : Except String (Token × PState) :=
  if checkT s t then .ok (peekT s, advanceT s) else .error (parseErrorMsg s (peekT s) message)

/-- `Parser.consume_one_of`. -/
def consumeOneOf (s : PState) (ts : List String) (message : String) :
    Except String (Token × PState) :=
  match ts.find? (fun t => checkT s t) with
  | some t => consumeT s t message
  | none => .error (parseErrorMsg s (peekT s) message)

/-- Python `str.strip` with a quote argument: drop every leading and trailing
double-quote character. -/
def stripQuotes (v : String) : String :=
  String.mk (((v.toList.dropWhile (fun c => c == '"')).reverse.dropWhile
    (fun c => c == '"')).reverse)

/-- Python `int(...)` on the digit string matched by the NUMBER pattern. -/
def digitsToInt (v : String) : Int :=
  Int.ofNat (v.toList.foldl (fun acc c => acc * 10 + (c.toNat - '0'.toNat)) 0)

mutual

/-- `Parser.parse_statement`: dispatch on the leading keyword; a bare
identifier immediately followed by `=` is an assignment, anything else must
parse as a call-expression statement. -/
def parseStatement : Nat → PState → Except String (Stmt × PState)
  | 0, _ => .error "parser fuel exhausted"
  | fuel + 1, s =>
    match matchT s "KW_FROM" with
    | (true, s) => parseImportStatement fuel s
    | (false, s) =>
    match matchT s "KW_FN" with
    | (true, s) => parseFunctionDeclaration fuel s
    | (false, s) =>
    match matchT s "KW_MACRO" with
    | (true, s) => parseMacroDeclaration fuel s
    | (false, s) =>
    match matchT s "KW_ON" with
    | (true, s) => parseOnBlock fuel s
    | (false, s) =>
    match matchT s "KW_IF" with
    | (true, s) => parseIfStatement fuel s
    | (false, s) =>
    match matchT s "KW_FOR" with
    | (true, s) => parseForStatement fuel s
    | (false, s) =>
    match matchT s "KW_WHILE" with
    | (true, s) => parseWhileStatement fuel s
    | (false, s) =>
      if checkT s "IDENT" && checkNextT s "EQUALS" then
        parseAssignmentStatement fuel s
      else
        parseCallStatement fuel s

/-- `Parser.parse_import_statement`. -/
def parseImportStatement : Nat → PState → Except String (Stmt × PState)
  | 0, _ => .error "parser fuel exhausted"
  | fuel + 1, s => do
    let (pathTok, s) ← consumeT s "STRING" "Expected a file path string after \x27from\x27."
    let pathLit := stripQuotes pathTok.value
    let (_, s) ← consumeT s "KW_IMPORT" "Expected \x27import\x27 keyword."
    match matchT s "ASTERISK" with
    | (true, s) => pure (.importStmt none pathLit true [], s)
    | (false, s) => do
      let (items, s) ← parseImportItems fuel s []
      pure (.importStmt none pathLit false items, s)

/-- The `while True` item loop of `parse_import_statement`. -/
def parseImportItems : Nat → PState → List (String × Option String) →
    Except String (List (String × Option String) × PState)
  | 0, _, _ => .error "parser fuel exhausted"
  | fuel + 1, s, acc => do
    let (nameTok, s) ← consumeT s "IDENT" "Expected an identifier to import."
    let (hasAlias, s) := matchT s "KW_AS"
    let (item, s) ←
      if hasAlias then do
        let (aliasTok, s) ← consumeT s "IDENT" "Expected an alias identifier after \x27as\x27."
        pure ((nameTok.value, some aliasTok.value), s)
      else
        pure ((nameTok.value, (none : Option String)), s)
    match matchT s "COMMA" with
    | (true, s) => parseImportItems fuel s (acc ++ [item])
    | (false, s) => pure (acc ++ [item], s)

/-- `Parser.parse_param_list`. -/
def parseParamList : Nat → PState → Except String (List String × PState)
  | 0, _ => .error "parser fuel exhausted"
  | fuel + 1, s => do
    let (_, s) ← consumeT s "LPAREN" "Expected \x27(\x27 after function/macro name."
    if checkT s "RPAREN" then do
      let (_, s) ← consumeT s "RPAREN" "Expected \x27)\x27 after parameters."
      pure ([], s)
    else do
      let (params, s) ← parseParamItems fuel s []
      let (_, s) ← consumeT s "RPAREN" "Expected \x27)\x27 after parameters."
      pure (params, s)

/-- The `while True` parameter loop of `parse_param_list`. -/
def parseParamItems : Nat → PState → List String → Except String (List String × PState)
  | 0, _, _ => .error "parser fuel exhausted"
  | fuel + 1, s, acc => do
    let (paramTok, s) ← consumeT s "IDENT" "Expected parameter name."
    match matchT s "COMMA" with
    | (true, s) => parseParamItems fuel s (acc ++ [paramTok.value])
    | (false, s) => pure (acc ++ [paramTok.value], s)

/-- `Parser.parse_function_declaration`. -/
def parseFunctionDeclaration : Nat → PState → Except String (Stmt × PState)
  | 0, _ => .error "parser fuel exhausted"
  | fuel + 1, s => do
    let (nameTok, s) ← consumeT s "IDENT" "Expected function name."
    let (params, s) ← parseParamList fuel s
    let (body, s) ← parseBlock fuel s
    pure (.fnDecl none nameTok.value params body, s)

/-- `Parser.parse_macro_declaration`. -/
def parseMacroDeclaration : Nat → PState → Except String (Stmt × PState)
  | 0, _ => .error "parser fuel exhausted"
  | fuel + 1, s => do
    let (nameTok, s) ← consumeT s "IDENT" "Expected macro name."
    let (params, s) ← parseParamList fuel s
    let (body, s) ← parseBlock fuel s
    pure (.macroDecl none nameTok.value params body, s)

/-- `Parser.parse_on_block`. -/
def parseOnBlock : Nat → PState → Except String (Stmt × PState)
  | 0, _ => .error "parser fuel exhausted"
  | fuel + 1, s => do
    let (eventTok, s) ← consumeOneOf s ["KW_LOAD", "KW_TICK"] "Expected \x27load\x27 or \x27tick\x27."
    let (body, s) ← parseBlock fuel s
    pure (.onBlock none eventTok.value body, s)

/-- `Parser.parse_if_statement`. -/
def parseIfStatement : Nat → PState → Except String (Stmt × PState)
  | 0, _ => .error "parser fuel exhausted"
  | fuel + 1, s => do
    let (cond, s) ← parseExpression fuel s 0
    let (ifBody, s) ← parseBlock fuel s
    match matchT s "KW_ELSE" with
    | (true, s) => do
      let (elseBody, s) ← parseBlock fuel s
      pure (.ifStmt none cond ifBody (some elseBody), s)
    | (false, s) => pure (.ifStmt none cond ifBody none, s)

/-- `Parser.parse_for_statement`. -/
def parseForStatement : Nat → PState → Except String (Stmt × PState)
  | 0, _ => .error "parser fuel exhausted"
  | fuel + 1, s => do
    let (typeTok, s) ← consumeT s "IDENT" "Expected type in for loop."
    let (nameTok, s) ← consumeT s "IDENT" "Expected variable name in for loop."
    let (_, s) ← consumeT s "KW_IN" "Expected \x27in\x27 keyword in for loop."
    let (iterable, s) ← parseExpression fuel s 0
    let (body, s) ← parseBlock fuel s
    pure (.forStmt none typeTok.value nameTok.value iterable body, s)

/-- `Parser.parse_while_statement`. -/
def parseWhileStatement : Nat → PState → Except String (Stmt × PState)
  | 0, _ => .error "parser fuel exhausted"
  | fuel + 1, s => do
    let (cond, s) ← parseExpression fuel s 0
    let (body, s) ← parseBlock fuel s
    pure (.whileStmt none cond body, s)

/-- `Parser.parse_assignment_statement`. -/
def parseAssignmentStatement : Nat → PState → Except String (Stmt × PState)
  | 0, _ => .error "parser fuel exhausted"
  | fuel + 1, s => do
    let (targetTok, s) ← consumeT s "IDENT" "Expected variable name."
    let (_, s) ← consumeT s "EQUALS" "Expected \x27=\x27 for assignment."
    let (value, s) ← parseExpression fuel s 0
    let (_, s) := matchT s "SEMICOLON"
    pure (.assign none (.ident targetTok.value) value, s)

/-- `Parser.parse_call_statement`: the parsed expression must be a call
expression, otherwise the statement is rejected. -/
def parseCallStatement : Nat → PState → Except String (Stmt × PState)
  | 0, _ => .error "parser fuel exhausted"
  | fuel + 1, s => do
    let (expr, s) ← parseExpression fuel s 0
    match expr with
    | .callE callee args =>
      let (_, s) := matchT s "SEMICOLON"
      pure (.callStmt none callee args, s)
    | _ => .error (parseErrorMsg s (peekT s) "Invalid statement. Expected a function call.")

/-- `Parser.parse_block`. -/
def parseBlock : Nat → PState → Except String (List Stmt × PState)
  | 0, _ => .error "parser fuel exhausted"
  | fuel + 1, s => do
    let (_, s) ← consumeT s "LBRACE" "Expected \x27\x7b\x27 to start a block."
    let (stmts, s) ← parseBlockItems fuel s []
    let (_, s) ← consumeT s "RBRACE" "Expected \x27\x7d\x27 to end a block."
    pure (stmts, s)

/-- The statement loop of `parse_block` (stray semicolons are skipped). -/
def parseBlockItems : Nat → PState → List Stmt → Except String (List Stmt × PState)
  | 0, _, _ => .error "parser fuel exhausted"
  | fuel + 1, s, acc =>
    if !checkT s "RBRACE" && !isAtEnd s then
      match matchT s "SEMICOLON" with
      | (true, s) => parseBlockItems fuel s acc
      | (false, s) => do
        let (stmt, s) ← parseStatement fuel s
        parseBlockItems fuel s (acc ++ [stmt])
    else
      pure (acc, s)

/-- `Parser.parse_expression`: precedence climbing - parse a prefix
expression, then fold infix extensions while the next token binds tighter
than the ambient precedence. -/
def parseExpression : Nat → PState → Nat → Except String (Expr × PState)
  | 0, _, _ => .error "parser fuel exhausted"
  | fuel + 1, s, prec => do
    let (left, s) ← parsePrefixExpr fuel s
    parseExprLoop fuel s prec left

/-- The `while not is_at_end and precedence < get_precedence(peek)` loop of
`parse_expression`. -/
def parseExprLoop : Nat → PState → Nat → Expr → Except String (Expr × PState)
  | 0, _, _, _ => .error "parser fuel exhausted"
  | fuel + 1, s, prec, left =>
    if !isAtEnd s && prec < getPrecedence (peekT s) then do
      let (left2, s) ← parseInfixExpr fuel s left
      parseExprLoop fuel s prec left2
    else
      pure (left, s)

/-- `Parser.parse_prefix`: identifier, number, string (quotes stripped),
selector (kept verbatim as a string literal), or a parenthesized expression. -/
def parsePrefixExpr : Nat → PState → Except String (Expr × PState)
  | 0, _ => .error "parser fuel exhausted"
  | fuel + 1, s =>
    match matchT s "IDENT" with
    | (true, s) => pure (.ident (prevT s).value, s)
    | (false, s) =>
    match matchT s "NUMBER" with
    | (true, s) => pure (.numLit (digitsToInt (prevT s).value), s)
    | (false, s) =>
    match matchT s "STRING" with
    | (true, s) => pure (.strLit (stripQuotes (prevT s).value), s)
    | (false, s) =>
    match matchT s "SELECTOR" with
    | (true, s) => pure (.strLit (prevT s).value, s)
    | (false, s) =>
    match matchT s "LPAREN" with
    | (true, s) => do
      let (expr, s) ← parseExpression fuel s 0
      let (_, s) ← consumeT s "RPAREN" "Expected \x27)\x27 after expression."
      pure (expr, s)
    | (false, s) => .error (parseErrorMsg s (peekT s) "Expected an expression.")

/-- `Parser.parse_infix`: a left parenthesis extends the left expression into
a call, any other operator token is consumed and parsed as a binary operator
at its table precedence. -/
def parseInfixExpr : Nat → PState → Expr → Except String (Expr × PState)
  | 0, _, _ => .error "parser fuel exhausted"
  | fuel + 1, s, left =>
    let opTok := peekT s
    if opTok.type == "LPAREN" then
      parseCallExpression fuel s left
    else do
      let s := advanceT s
      let (right, s) ← parseExpression fuel s (getPrecedence opTok)
      pure (.binary left opTok.value right, s)

/-- `Parser.parse_call_expression`: the callee must be a bare identifier. -/
def parseCallExpression : Nat → PState → Expr → Except String (Expr × PState)
  | 0, _, _ => .error "parser fuel exhausted"
  | fuel + 1, s, callee =>
    match callee with
    | .ident _ => do
      let (_, s) ← consumeT s "LPAREN" "Expected \x27(\x27 to start a call."
      if checkT s "RPAREN" then do
        let (_, s) ← consumeT s "RPAREN" "Expected \x27)\x27 after arguments."
        pure (.callE callee [], s)
      else do
        let (args, s) ← parseCallArgs fuel s []
        let (_, s) ← consumeT s "RPAREN" "Expected \x27)\x27 after arguments."
        pure (.callE callee args, s)
    | _ => .error (parseErrorMsg s (prevT s) "Expected a function name before \x27(\x27.")

/-- The `while True` argument loop of `parse_call_expression`. -/
def parseCallArgs : Nat → PState → List Expr → Except String (List Expr × PState)
  | 0, _, _ => .error "parser fuel exhausted"
  | fuel + 1, s, acc => do
    let (arg, s) ← parseExpression fuel s 0
    match matchT s "COMMA" with
    | (true, s) => parseCallArgs fuel s (acc ++ [arg])
    | (false, s) => pure (acc ++ [arg], s)

end

/-- The top-level statement loop of `Parser.parse`. -/
def parseModuleItems : Nat → PState → List Stmt → Except String (List Stmt × PState)
  | 0, _, _ => .error "parser fuel exhausted"
  | fuel + 1, s, acc =>
    if !isAtEnd s then
      match matchT s "SEMICOLON" with
      | (true, s) => parseModuleItems fuel s acc
      | (false, s) => do
        let (stmt, s) ← parseStatement fuel s
        parseModuleItems fuel s (acc ++ [stmt])
    else
      pure (acc, s)

/-- `Parser.parse`: a module is the statement sequence up to EOF. -/
def parseModule (fuel : Nat) (tokens : List Token) (filePath : String) :
    Except String Module := do
  let (stmts, _) ← parseModuleItems fuel ⟨tokens, 0, filePath⟩ []
  pure { path := filePath, statements := stmts }

/-! ## Module resolver (resolver.py)

Reading and parsing a file is collapsed into a lookup in a finite model of
the file system: an association list from resolved absolute path to the
parsed module (a missing key models a missing file, and a read+lex+parse
error would surface as a ResolverError exactly like a missing file, so the
distinction is immaterial to the claims below).  The path arithmetic
`(base_dir / import_stmt.path.value).resolve()` is an injected function
`resolvePath` taking the path of the containing module and the import string.
The ghost `readLog` records each path in the order it is read and parsed. -/

mutual

/-- `ImportFinder.find` (resolver.py): collect every ImportStatement node of
the module tree in traversal order (the finder recurses through all blocks,
and import statements themselves are not descended into). -/
def stmtImports : Stmt → List String
  | .importStmt _ p _ _ => [p]
  | .fnDecl _ _ _ b => stmtListImports b
  | .macroDecl _ _ _ b => stmtListImports b
  | .onBlock _ _ b => stmtListImports b
  | .ifStmt _ _ ib eb =>
    stmtListImports ib ++ (match eb with | none => [] | some b => stmtListImports b)
  | .forStmt _ _ _ _ b => stmtListImports b
  | .whileStmt _ _ b => stmtListImports b
  | .assign _ _ _ => []
  | .callStmt _ _ _ => []

/-- Import collection over a statement list, in order. -/
def stmtListImports : List Stmt → List String
  | [] => []
  | s :: rest => stmtImports s ++ stmtListImports rest

end

/-- The import strings of one module in traversal order. -/
def moduleImports (m : Module) : List String := stmtListImports m.statements

/-- `Resolver._discover_imports`: resolve each import of the just-parsed
module against its containing path and keep those not yet processed. -/
def discoverImports (resolvePath : String → String → String) (processed : List String)
    (containing : String) (m : Module) : List String :=
  ((moduleImports m).map (resolvePath containing)).filter (fun p => !processed.contains p)

/-- A helper for the termination measure of the worklist loop: the number of
file-system paths not yet processed. -/
def unprocessedCount (fs : List (String × Module)) (processed : List String) : Nat :=
  ((fs.map Prod.fst).filter (fun q => !processed.contains q)).length

theorem length_filter_le_of_imp (l : List String) (P Q : String → Bool)
    (h : ∀ a, P a = true → Q a = true) : (l.filter P).length ≤ (l.filter Q).length := by
  induction l with
  | nil => simp
  | cons a t ih =>
    by_cases hP : P a = true
    · simp only [List.filter_cons, hP, h a hP, if_true, List.length_cons]
      omega
    · have hP2 : P a = false := by
        rcases h2 : P a with _ | _
        · rfl
        · exact absurd h2 hP
      simp only [List.filter_cons, hP2, Bool.false_eq_true, if_false]
      rcases hQ : Q a with _ | _
      · simp only [Bool.false_eq_true, if_false]
        exact ih
      · simp only [if_true, List.length_cons]
        omega

theorem filter_not_mem_append_lt (keys processed : List String) (p : String)
    (hmem : p ∈ keys) (hnp : p ∉ processed) :
    (keys.filter (fun q => !decide (q ∈ processed ++ [p]))).length <
    (keys.filter (fun q => !decide (q ∈ processed))).length := by
  induction keys with
  | nil => simp at hmem
  | cons a t ih =>
    rcases List.mem_cons.mp hmem with heq | htail
    · subst heq
      have hle : (t.filter (fun q => !decide (q ∈ processed ++ [p]))).length
          ≤ (t.filter (fun q => !decide (q ∈ processed))).length := by
        apply length_filter_le_of_imp
        intro a ha
        simp only [Bool.not_eq_true', decide_eq_false_iff_not, List.mem_append] at ha ⊢
        intro hc
        exact ha (Or.inl hc)
      have e1 : List.filter (fun q => !decide (q ∈ processed ++ [p])) (p :: t)
          = List.filter (fun q => !decide (q ∈ processed ++ [p])) t := by
        rw [List.filter_cons]
        simp
      have e2 : List.filter (fun q => !decide (q ∈ processed)) (p :: t)
          = p :: List.filter (fun q => !decide (q ∈ processed)) t := by
        rw [List.filter_cons]
        simp [hnp]
      rw [e1, e2]
      simp only [List.length_cons]
      omega
    · by_cases hap : a ∈ processed
      · have h1 : a ∈ processed ++ [p] := List.mem_append.mpr (Or.inl hap)
        have e1 : List.filter (fun q => !decide (q ∈ processed ++ [p])) (a :: t)
            = List.filter (fun q => !decide (q ∈ processed ++ [p])) t := by
          rw [List.filter_cons]
          simp [h1]
        have e2 : List.filter (fun q => !decide (q ∈ processed)) (a :: t)
            = List.filter (fun q => !decide (q ∈ processed)) t := by
          rw [List.filter_cons]
          simp [hap]
        rw [e1, e2]
        exact ih htail
      · by_cases hap2 : a ∈ processed ++ [p]
        · have e1 : List.filter (fun q => !decide (q ∈ processed ++ [p])) (a :: t)
              = List.filter (fun q => !decide (q ∈ processed ++ [p])) t := by
            rw [List.filter_cons]
            simp [hap2]
          have e2 : List.filter (fun q => !decide (q ∈ processed)) (a :: t)
              = a :: List.filter (fun q => !decide (q ∈ processed)) t := by
            rw [List.filter_cons]
            simp [hap]
          rw [e1, e2]
          simp only [List.length_cons]
          have := ih htail
          omega
        · have e1 : List.filter (fun q => !decide (q ∈ processed ++ [p])) (a :: t)
              = a :: List.filter (fun q => !decide (q ∈ processed ++ [p])) t := by
            rw [List.filter_cons]
            simp [hap2]
          have e2 : List.filter (fun q => !decide (q ∈ processed)) (a :: t)
              = a :: List.filter (fun q => !decide (q ∈ processed)) t := by
            rw [List.filter_cons]
            simp [hap]
          rw [e1, e2]
          simp only [List.length_cons]
          have := ih htail
          omega

theorem unprocessedCount_lt (fs : List (String × Module)) (processed : List String)
    (p : String) (hmem : p ∈ fs.map Prod.fst) (hnp : processed.contains p = false) :
    unprocessedCount fs (processed ++ [p]) < unprocessedCount fs processed := by
  unfold unprocessedCount
  have hcv : ∀ (l : List String) (q : String), l.contains q = decide (q ∈ l) :=
    fun l q => List.elem_eq_mem q l
  simp only [hcv]
  apply filter_not_mem_append_lt _ _ _ hmem
  intro hc
  rw [hcv] at hnp
  simp [hc] at hnp

/-- The FIFO worklist loop of `Resolver.discover_and_parse_all`: pop a path,
skip it when already processed, fail when it is not a file, otherwise record
the parsed module, mark the path processed, and enqueue its unprocessed
imported paths at the back of the list.  Termination is well-founded: each iteration
either strictly shrinks the set of unprocessed known paths or keeps it and
strictly shrinks the worklist. -/
def resolveLoop (resolvePath : String → String → String) (fs : List (String × Module)) :
    List String → List String → List (String × Module) → List String →
    Except String (List (String × Module) × List String)
  | [], _, mods, readLog => .ok (mods, readLog)
  | p :: rest, processed, mods, readLog =>
    if hproc : processed.contains p then
      resolveLoop resolvePath fs rest processed mods readLog
    else
      match hfind : fs.find? (fun kv => kv.1 == p) with
      | none => .error ("Imported file not found: " ++ p)
      | some kv =>
        let m := kv.2
        let mods2 := mods ++ [(p, m)]
        let processed2 := processed ++ [p]
        let newFiles := discoverImports resolvePath processed2 p m
        resolveLoop resolvePath fs (rest ++ newFiles) processed2 mods2 (readLog ++ [p])
  termination_by wl processed _ _ => (unprocessedCount fs processed, wl.length)
  decreasing_by
  · apply Prod.Lex.right
    simp
  · apply Prod.Lex.left
    apply unprocessedCount_lt
    · have hkv := List.find?_some hfind
      have hmem := List.mem_of_find?_eq_some hfind
      have : kv.1 = p := by
        simpa [beq_iff_eq] using hkv
      rw [← this]
      exact List.mem_map_of_mem Prod.fst hmem
    · simpa using hproc

/-- The entrypoint-validation step `Resolver._validate_entrypoints`: both
entrypoint modules must be in the map and contain, at top level, an event
block of their respective kind. -/
def validateEntrypoints (mods : List (String × Module)) (loadPath tickPath : String) :
    Except String Unit := do
  match mods.find? (fun kv => kv.1 == loadPath) with
  | none => .error ("Entrypoint file " ++ loadPath ++ " was not resolved.")
  | some kvLoad =>
    match mods.find? (fun kv => kv.1 == tickPath) with
    | none => .error ("Entrypoint file " ++ tickPath ++ " was not resolved.")
    | some kvTick =>
      if kvLoad.2.statements.any (fun s =>
          match s with | .onBlock _ e _ => e == "load" | _ => false) then
        if kvTick.2.statements.any (fun s =>
            match s with | .onBlock _ e _ => e == "tick" | _ => false) then
          pure ()
        else
          .error ("Entrypoint file \x27" ++ tickPath
            ++ "\x27 must contain an \x27on tick \x7b ... \x7d\x27 block.")
      else
        .error ("Entrypoint file \x27" ++ loadPath
          ++ "\x27 must contain an \x27on load \x7b ... \x7d\x27 block.")

/-- `Resolver.discover_and_parse_all`: seed the worklist with the two resolved
entrypoints, drain it, then validate the entrypoints.  Returns the module map
(insertion-ordered) and the ghost read log. -/
def discoverAndParseAll (resolvePath : String → String → String)
    (fs : List (String × Module)) (loadPath tickPath : String) :
    Except String (List (String × Module) × List String) := do
  let (mods, readLog) ← resolveLoop resolvePath fs [loadPath, tickPath] [] [] []
  validateEntrypoints mods loadPath tickPath
  pure (mods, readLog)

/-! ## Driver compositions (__main__.py) and inspection helpers -/

/-- Driver steps 3 and 4 of `__main__.py` for a multi-module project: build
the initial symbol tables (one builder per module, one shared scope heap),
then expand macros in every module; `none` collapses the error cases. -/
def expandPipelineMulti (mods : List (String × Module)) : Option (List (String × Module)) :=
  match buildModules [] mods with
  | .error _ => none
  | .ok (mods1, arena) =>
    match expandModules mods1 arena with
    | .error _ => none
    | .ok mods2 => some mods2

/-- Driver steps 3 and 4 for a single-module project. -/
def expandPipeline (path : String) (m : Module) : Option Module :=
  match buildModule [] path m with
  | .error _ => none
  | .ok (m1, arena) =>
    match expandModule [(path, m1)] arena m1 with
    | .error _ => none
    | .ok m2 => some m2

/-- Driver steps 3 to 6 for a single-module project, with the emitter
parameterized over the `config.build.debug_message` attribute access:
initial symbol tables, macro expansion, rebuilt symbol tables (a fresh scope
heap, as the old scopes are never read again), then `Emitter(...)` followed
by `emit_all()`. -/
def compilePipelineWith (dbg : BuildConfig → Except String Bool) (cfg : EmCfg)
    (path : String) (m : Module) : Option EmState :=
  match buildModule [] path m with
  | .error _ => none
  | .ok (m1, arena1) =>
    match expandModule [(path, m1)] arena1 m1 with
    | .error _ => none
    | .ok m2 =>
      match buildModule [] path m2 with
      | .error _ => none
      | .ok (m3, arena2) =>
        match emitterInit dbg cfg with
        | .error _ => none
        | .ok _ =>
          match emitAll dbg cfg arena2 [(path, m3)] {} with
          | .error _ => none
          | .ok st => some st

/-- The pipeline as the program runs it: the emitter performs the
`config.build.debug_message` accesses, which raise. -/
def compilePipeline (cfg : EmCfg) (path : String) (m : Module) : Option EmState :=
  compilePipelineWith debugMessageAttr cfg path m

/-- The pipeline under the counterfactual access `debugMessageOff`: what the
lowering logic produces were the missing attribute present and False. -/
def compilePipelineNoDebug (cfg : EmCfg) (path : String) (m : Module) : Option EmState :=
  compilePipelineWith debugMessageOff cfg path m

mutual

/-- Whether a statement tree contains a call statement whose callee is the
given identifier (searching nested blocks). -/
def stmtHasCallTo (name : String) : Stmt → Bool
  | .callStmt _ (.ident n) _ => n == name
  | .callStmt _ _ _ => false
  | .importStmt _ _ _ _ => false
  | .fnDecl _ _ _ b => stmtListHasCallTo name b
  | .macroDecl _ _ _ b => stmtListHasCallTo name b
  | .onBlock _ _ b => stmtListHasCallTo name b
  | .ifStmt _ _ ib eb =>
    stmtListHasCallTo name ib
      || (match eb with | none => false | some b => stmtListHasCallTo name b)
  | .forStmt _ _ _ _ b => stmtListHasCallTo name b
  | .whileStmt _ _ b => stmtListHasCallTo name b
  | .assign _ _ _ => false

/-- `stmtHasCallTo` over a statement list. -/
def stmtListHasCallTo (name : String) : List Stmt → Bool
  | [] => false
  | s :: rest => stmtHasCallTo name s || stmtListHasCallTo name rest

end

/-- Whether a module contains (anywhere) a call statement to `name`. -/
def moduleHasCallTo (name : String) (m : Module) : Bool :=
  stmtListHasCallTo name m.statements

/-- Whether a module declares a macro `name` at top level. -/
def moduleDeclaresMacroNamed (name : String) (m : Module) : Bool :=
  m.statements.any (fun s => match s with | .macroDecl _ n _ _ => n == name | _ => false)

mutual

/-- Whether an expression contains a BinaryExpr node with the given operator. -/
def exprHasBinaryOp (op : String) : Expr → Bool
  | .ident _ => false
  | .strLit _ => false
  | .numLit _ => false
  | .varRef _ => false
  | .binary l o r => o == op || exprHasBinaryOp op l || exprHasBinaryOp op r
  | .callE c args => exprHasBinaryOp op c || exprListHasBinaryOp op args

/-- `exprHasBinaryOp` over an expression list. -/
def exprListHasBinaryOp (op : String) : List Expr → Bool
  | [] => false
  | e :: rest => exprHasBinaryOp op e || exprListHasBinaryOp op rest

end

/-! ## Concrete instances for the claims -/

/-- C1 instance: a macro whose body calls another macro, called from an
`on load` block (`macro inner() { say "hi"; } macro outer() { inner(); }
on load { outer(); }`). -/
def c1Module : Module :=
  { path := "main.oort"
    statements :=
      [ .macroDecl none "inner" [] [.callStmt none (.ident "say") [.strLit "hi"]]
      , .macroDecl none "outer" [] [.callStmt none (.ident "inner") []]
      , .onBlock none "load" [.callStmt none (.ident "outer") []] ] }

/-- The post-expansion module for the C1 instance, as the expander actually
returns it: the outer call was replaced by the macro body `inner()`, and that
spliced call statement (carrying no scope) was not processed again. -/
def c1Expanded : Module :=
  { path := "main.oort"
    statements :=
      [ .macroDecl none "inner" [] [.callStmt none (.ident "say") [.strLit "hi"]]
      , .macroDecl none "outer" [] [.callStmt none (.ident "inner") []]
      , .onBlock none "load" [.callStmt none (.ident "inner") []] ]
    scope := some 0 }

/-- C2 instance: `macro m(x) { x = 1; say x; } on load { m(5); }`. -/
def c2Module : Module :=
  { path := "main.oort"
    statements :=
      [ .macroDecl none "m" ["x"]
          [.assign none (.ident "x") (.numLit 1), .callStmt none (.ident "say") [.ident "x"]]
      , .onBlock none "load" [.callStmt none (.ident "m") [.numLit 5]] ] }

/-- The post-expansion module for the C2 instance: the assignment TARGET
identifier was substituted by the argument expression `5` exactly like the
expression occurrence. -/
def c2Expanded : Module :=
  { path := "main.oort"
    statements :=
      [ .macroDecl none "m" ["x"]
          [.assign none (.ident "x") (.numLit 1), .callStmt none (.ident "say") [.ident "x"]]
      , .onBlock none "load"
          [.assign none (.numLit 5) (.numLit 1), .callStmt none (.ident "say") [.numLit 5]] ]
    scope := some 0 }

/-- C3 instance, library module: `macro foo(x) { say x; }`. -/
def c3Lib : Module :=
  { path := "lib.oort"
    statements := [.macroDecl none "foo" ["x"] [.callStmt none (.ident "say") [.ident "x"]]] }

/-- C3 instance, main module importing the macro under an alias and calling
the alias: `from "lib.oort" import foo as bar  on load { bar(1); }`. -/
def c3MainAliased : Module :=
  { path := "main.oort"
    statements :=
      [ .importStmt none "lib.oort" false [("foo", some "bar")]
      , .onBlock none "load" [.callStmt none (.ident "bar") [.numLit 1]] ] }

/-- C3 control instance, main module importing the macro without an alias. -/
def c3MainPlain : Module :=
  { path := "main.oort"
    statements :=
      [ .importStmt none "lib.oort" false [("foo", none)]
      , .onBlock none "load" [.callStmt none (.ident "foo") [.numLit 1]] ] }

/-- C4 instance: `macro foo(x) { say x; } on load { foo(1); }`. -/
def c4Module : Module :=
  { path := "main.oort"
    statements :=
      [ .macroDecl none "foo" ["x"] [.callStmt none (.ident "say") [.ident "x"]]
      , .onBlock none "load" [.callStmt none (.ident "foo") [.numLit 1]] ] }

/-- The emitter configuration used by the concrete emission instances:
namespace `ns`, every module path lowering to the function base `main`, and a
build section as `ProjectConfig.from_project_dir` constructs it (only
`output`, `datapack_name` and `clean`). -/
def cMainCfg : EmCfg := ⟨"ns", fun _ => "main", ⟨"dist", "pack", true⟩⟩

/-- The exact line list of the load function file emitted for `c4Module`. -/
def c4LoadLines : List String :=
  [ "# Event: on load"
  , "scoreboard objectives add " ++ VARS_OBJECTIVE ++ " dummy"
  , "say 1" ]

/-- C5 instance: the token sequence of the fragment `x = 5` as the lexer
produces it. -/
def c5ExprToks : List Token :=
  [ ⟨"IDENT", "x", 1, 1, 0, 1⟩
  , ⟨"EQUALS", "=", 1, 3, 2, 3⟩
  , ⟨"NUMBER", "5", 1, 5, 4, 5⟩
  , ⟨"EOF", "", 1, 6, 5, 5⟩ ]

/-- C5 instance: the token sequence of `if x = 5 ... say(1); ...` (the blocks
written with braces in source). -/
def c5IfToks : List Token :=
  [ ⟨"KW_IF", "if", 1, 1, 0, 2⟩
  , ⟨"IDENT", "x", 1, 4, 3, 4⟩
  , ⟨"EQUALS", "=", 1, 6, 5, 6⟩
  , ⟨"NUMBER", "5", 1, 8, 7, 8⟩
  , ⟨"LBRACE", String.mk [lbraceChar], 1, 10, 9, 10⟩
  , ⟨"IDENT", "say", 1, 12, 11, 14⟩
  , ⟨"LPAREN", "(", 1, 15, 14, 15⟩
  , ⟨"NUMBER", "1", 1, 16, 15, 16⟩
  , ⟨"RPAREN", ")", 1, 17, 16, 17⟩
  , ⟨"SEMICOLON", ";", 1, 18, 17, 18⟩
  , ⟨"RBRACE", String.mk [rbraceChar], 1, 20, 19, 20⟩
  , ⟨"EOF", "", 1, 21, 20, 20⟩ ]

/-- C6 instance: a source text consisting of one string literal containing a
line break. -/
def c6Source : String := String.mk ['"', 'a', '\n', 'b', '"']

/-- C7 instance: module A star-imports B and contains the `on load` block. -/
def c7A : Module :=
  { path := "A"
    statements := [.importStmt none "B" true [], .onBlock none "load" []] }

/-- C7 instance: module B star-imports A and contains the `on tick` block. -/
def c7B : Module :=
  { path := "B"
    statements := [.importStmt none "A" true [], .onBlock none "tick" []] }

/-- The two-module cyclic file system of the C7 instance. -/
def c7Fs : List (String × Module) := [("A", c7A), ("B", c7B)]

/-- Path resolution for the C7 instance: import strings are already absolute. -/
def c7Resolve : String → String → String := fun _ imp => imp

/-- C8 instance: `fn heal() { say "+"; } on tick { if hp < 10 { heal(); } }`. -/
def c8Module : Module :=
  { path := "main.oort"
    statements :=
      [ .fnDecl none "heal" [] [.callStmt none (.ident "say") [.strLit "+"]]
      , .onBlock none "tick"
          [ .ifStmt none (.binary (.ident "hp") "<" (.numLit 10))
              [.callStmt none (.ident "heal") []] none ] ] }

/-- C9 instance: two top-level functions with the same name. -/
def c9Dup : Module :=
  { path := "main.oort"
    statements := [.fnDecl none "f" [] [], .fnDecl none "f" [] []] }

/-- C9 instance: a variable first assigned in an outer block and then
assigned again, for the first time, inside a nested if-body block. -/
def c9Shadow : Module :=
  { path := "main.oort"
    statements :=
      [ .onBlock none "load"
          [ .assign none (.ident "x") (.numLit 1)
          , .ifStmt none (.binary (.ident "y") "==" (.numLit 0))
              [.assign none (.ident "x") (.numLit 2)] none ] ] }

/-- C10 instance: a macro, a function, and two top-level call statements
(one to the macro, one to the function), all direct children of the module. -/
def c10Module : Module :=
  { path := "main.oort"
    statements :=
      [ .macroDecl none "m" [] [.callStmt none (.ident "say") [.strLit "hi"]]
      , .fnDecl none "f" [] [.callStmt none (.ident "say") [.strLit "a"]]
      , .callStmt none (.ident "m") []
      , .callStmt none (.ident "f") [] ] }

/-! ## Helper lemmas

Facts about the embedded definitions shared by the claim theorems below:
the lexer matchers never include a newline in a match (outside STRING and
NEWLINE), the resolver worklist loop drains and reads each file once, and
the symbol-table builder leaves the scope attribute of the visited statement
itself untouched. -/

theorem matchComment_no_newline {cs m} (h : matchComment cs = some m) : '\n' ∉ m := by
  unfold matchComment at h
  split at h
  · rename_i rest
    injection h with h
    subst h
    intro hmem
    rcases List.mem_cons.mp hmem with h1 | h1
    · simp at h1
    · have := List.mem_takeWhile_imp h1
      simp at this
  · exact absurd h (by simp)

theorem matchWhitespaceRun_no_newline {cs m} (h : matchWhitespaceRun cs = some m) :
    '\n' ∉ m := by
  simp only [matchWhitespaceRun] at h
  split at h
  · exact absurd h (by simp)
  · injection h with h
    subst h
    intro hmem
    have := List.mem_takeWhile_imp hmem
    simp at this

theorem matchExact_eq {pat cs m} (h : matchExact pat cs = some m) : m = pat := by
  simp only [matchExact] at h
  split at h
  · injection h with h
    exact h.symm
  · exact absurd h (by simp)

theorem matchKeyword_eq {prev kw cs m} (h : matchKeyword prev kw cs = some m) : m = kw := by
  simp only [matchKeyword] at h
  split at h
  · injection h with h
    exact h.symm
  · exact absurd h (by simp)

theorem matchNumberRun_no_newline {cs m} (h : matchNumberRun cs = some m) : '\n' ∉ m := by
  simp only [matchNumberRun] at h
  split at h
  · exact absurd h (by simp)
  · injection h with h
    subst h
    intro hmem
    have := List.mem_takeWhile_imp hmem
    simp at this

theorem matchSelector_no_newline {cs m} (h : matchSelector cs = some m) : '\n' ∉ m := by
  unfold matchSelector at h
  split at h
  · rename_i c rest
    split at h
    · injection h with h
      subst h
      rename_i hc
      intro hmem
      rcases List.mem_cons.mp hmem with h1 | h1
      · simp at h1
      · rcases List.mem_cons.mp h1 with h2 | h2
        · subst h2
          simp at hc
        · simp at h2
    · exact absurd h (by simp)
  · exact absurd h (by simp)

theorem matchIdentRun_no_newline {cs m} (h : matchIdentRun cs = some m) : '\n' ∉ m := by
  unfold matchIdentRun at h
  split at h
  · exact absurd h (by simp)
  · rename_i c rest
    split at h
    · injection h with h
      subst h
      rename_i hc
      intro hmem
      rcases List.mem_cons.mp hmem with h1 | h1
      · subst h1
        simp at hc
      · have := List.mem_takeWhile_imp h1
        simp [isWordChar] at this
    · exact absurd h (by simp)

theorem matchAnyChar_no_newline {cs m} (h : matchAnyChar cs = some m) : '\n' ∉ m := by
  unfold matchAnyChar at h
  split at h
  · exact absurd h (by simp)
  · rename_i c rest
    split at h
    · injection h with h
      subst h
      rename_i hc
      intro hmem
      rcases List.mem_cons.mp hmem with h1 | h1
      · subst h1
        simp at hc
      · simp at h1
    · exact absurd h (by simp)

theorem tokenSpecification_ok :
    ∀ spec ∈ tokenSpecification, ∀ prev cs m, spec.2 prev cs = some m →
      spec.1 ≠ "STRING" → spec.1 ≠ "NEWLINE" → '\n' ∉ m := by
  intro spec hmem
  simp only [tokenSpecification, List.mem_cons, List.not_mem_nil, or_false] at hmem
  rcases hmem with rfl|rfl|rfl|rfl|rfl|rfl|rfl|rfl|rfl|rfl|rfl|rfl|rfl|rfl|rfl|rfl|rfl|rfl|rfl|rfl|rfl|rfl|rfl|rfl|rfl|rfl|rfl|rfl|rfl|rfl|rfl|rfl|rfl|rfl|rfl|rfl|rfl|rfl
  all_goals intro prev cs m h hk hn
  all_goals first
    | exact matchComment_no_newline h
    | exact matchWhitespaceRun_no_newline h
    | exact matchNumberRun_no_newline h
    | exact matchSelector_no_newline h
    | exact matchIdentRun_no_newline h
    | exact matchAnyChar_no_newline h
    | exact absurd rfl hk
    | exact absurd rfl hn
    | (have he := matchExact_eq h; subst he; decide)
    | (have he := matchKeyword_eq h; subst he; decide)

theorem firstMatch_no_newline {prev cs k m} (h : firstMatch prev cs = some (k, m))
    (hk : k ≠ "STRING") (hn : k ≠ "NEWLINE") : '\n' ∉ m := by
  obtain ⟨spec, hmem, heq⟩ := List.exists_of_findSome?_eq_some h
  obtain ⟨m2, hm2, hpair⟩ := Option.map_eq_some'.mp heq
  have hpair2 : (spec.1, m2) = (k, m) := hpair
  injection hpair2 with e1 e2
  rw [← e1] at hk hn
  rw [← e2]
  exact tokenSpecification_ok spec hmem prev cs m2 hm2 hk hn

theorem lexLoop_no_newline :
    ∀ (fuel : Nat) (cs : List Char) (prev : Option Char) (pos line col : Nat)
      (acc toks : List Token),
      (∀ t ∈ acc, t.type ≠ "STRING" → '\n' ∉ t.value.toList) →
      lexLoop fuel cs prev pos line col acc = .ok toks →
      ∀ t ∈ toks, t.type ≠ "STRING" → '\n' ∉ t.value.toList := by
  intro fuel
  induction fuel with
  | zero =>
    intro cs prev pos line col acc toks hacc h
    simp [lexLoop] at h
  | succ fuel ih =>
    intro cs prev pos line col acc toks hacc h
    cases cs with
    | nil =>
      simp only [lexLoop] at h
      injection h with h
      subst h
      intro t hmem ht
      rcases List.mem_append.mp hmem with h1 | h1
      · exact hacc t h1 ht
      · rcases List.mem_singleton.mp h1 with rfl
        simp
    | cons c cs2 =>
      simp only [lexLoop] at h
      cases hfm : firstMatch prev (c :: cs2) with
      | none =>
        rw [hfm] at h
        simp at h
      | some km =>
        obtain ⟨k, m⟩ := km
        rw [hfm] at h
        simp only at h
        split at h
        · exact ih _ _ _ _ _ _ _ hacc h
        · split at h
          · exact ih _ _ _ _ _ _ _ hacc h
          · split at h
            · simp at h
            · rename_i hknl hkwsc hkmis
              apply ih _ _ _ _ _ _ _ _ h
              intro t hmem ht
              rcases List.mem_append.mp hmem with h1 | h1
              · exact hacc t h1 ht
              · rcases List.mem_singleton.mp h1 with rfl
                simp only [] at ht ⊢
                apply firstMatch_no_newline hfm ht
                intro hkeq
                subst hkeq
                simp at hknl

theorem find?_isSome_of_mem_keys {l : List (String × Module)} {p : String}
    (h : p ∈ l.map Prod.fst) : (l.find? (fun kv => kv.1 == p)).isSome := by
  induction l with
  | nil => simp at h
  | cons kv t ih =>
    rw [List.find?_cons]
    by_cases he : kv.1 = p
    · simp [he]
    · have hb : (kv.1 == p) = false := by
        simp [he]
      rw [hb]
      apply ih
      rcases List.mem_cons.mp h with h1 | h1
      · exact absurd h1.symm he
      · exact h1

theorem resolveLoop_drains (resolvePath : String → String → String)
    (fs : List (String × Module))
    (hclosed : ∀ pm ∈ fs, ∀ imp ∈ moduleImports pm.2,
      resolvePath pm.1 imp ∈ fs.map Prod.fst) :
    ∀ (wl processed : List String) (mods : List (String × Module)) (readLog : List String),
      (∀ p ∈ wl, p ∈ fs.map Prod.fst) →
      ∃ r, resolveLoop resolvePath fs wl processed mods readLog = .ok r := by
  intro wl processed mods readLog
  induction wl, processed, mods, readLog using resolveLoop.induct resolvePath fs with
  | case1 processed mods readLog =>
    intro _
    rw [resolveLoop]
    exact ⟨(mods, readLog), rfl⟩
  | case2 p rest processed mods readLog hproc ih =>
    intro hwl
    rw [resolveLoop, dif_pos hproc]
    exact ih (fun q hq => hwl q (List.mem_cons_of_mem p hq))
  | case3 p rest processed mods readLog hproc hfind =>
    intro hwl
    have hmem := hwl p (List.mem_cons_self p rest)
    have := find?_isSome_of_mem_keys hmem
    rw [hfind] at this
    simp at this
  | case4 p rest processed mods readLog hproc kv hfind mdef mods2X processed2X newFilesX ih =>
    intro hwl
    have hnew : ∀ q ∈ rest ++ discoverImports resolvePath (processed ++ [p]) p kv.2,
        q ∈ fs.map Prod.fst := by
      intro q hq
      rcases List.mem_append.mp hq with h1 | h1
      · exact hwl q (List.mem_cons_of_mem p h1)
      · have hkvmem := List.mem_of_find?_eq_some hfind
        have hkv1 : kv.1 = p := by
          have := List.find?_some hfind
          simpa [beq_iff_eq] using this
        simp only [discoverImports, List.mem_filter, List.mem_map] at h1
        obtain ⟨⟨imp, himp, heq⟩, _⟩ := h1
        subst heq
        rw [← hkv1]
        exact hclosed kv hkvmem imp himp
    rw [resolveLoop, dif_neg hproc, hfind]
    show ∃ r, resolveLoop resolvePath fs
      (rest ++ discoverImports resolvePath (processed ++ [p]) p kv.2)
      (processed ++ [p]) (mods ++ [(p, kv.2)]) (readLog ++ [p]) = .ok r
    exact ih hnew

theorem resolveLoop_exactly_once (resolvePath : String → String → String)
    (fs : List (String × Module)) :
    ∀ (wl processed : List String) (mods : List (String × Module)) (readLog : List String),
      mods.map Prod.fst = readLog → processed = readLog → readLog.Nodup →
      ∀ (mods2 : List (String × Module)) (log2 : List String),
        resolveLoop resolvePath fs wl processed mods readLog = .ok (mods2, log2) →
        mods2.map Prod.fst = log2 ∧ log2.Nodup := by
  intro wl processed mods readLog
  induction wl, processed, mods, readLog using resolveLoop.induct resolvePath fs with
  | case1 processed mods readLog =>
    intro h1 h2 h3 mods2 log2 h
    rw [resolveLoop] at h
    injection h with h
    injection h with ha hb
    subst ha
    subst hb
    exact ⟨h1, h3⟩
  | case2 p rest processed mods readLog hproc ih =>
    intro h1 h2 h3 mods2 log2 h
    rw [resolveLoop, dif_pos hproc] at h
    exact ih h1 h2 h3 mods2 log2 h
  | case3 p rest processed mods readLog hproc hfind =>
    intro h1 h2 h3 mods2 log2 h
    rw [resolveLoop, dif_neg hproc, hfind] at h
    simp at h
  | case4 p rest processed mods readLog hproc kv hfind mdef mods2X processed2X newFilesX ih =>
    intro h1 h2 h3 mods2 log2 h
    rw [resolveLoop, dif_neg hproc, hfind] at h
    have h4 : resolveLoop resolvePath fs
        (rest ++ discoverImports resolvePath (processed ++ [p]) p kv.2)
        (processed ++ [p]) (mods ++ [(p, kv.2)]) (readLog ++ [p]) = .ok (mods2, log2) := h
    have inv1 : (mods ++ [(p, kv.2)]).map Prod.fst = readLog ++ [p] := by
      simp [h1]
    have inv2 : processed ++ [p] = readLog ++ [p] := by
      rw [h2]
    have inv3 : (readLog ++ [p]).Nodup := by
      rw [List.nodup_append]
      refine ⟨h3, List.nodup_singleton p, ?_⟩
      intro q hq hq2
      rcases List.mem_singleton.mp hq2 with rfl
      rw [← h2] at hq
      have hc : processed.contains q = true := by
        show List.elem q processed = true
        rw [List.elem_eq_mem q processed]
        simp [hq]
      exact hproc hc
    exact ih inv1 inv2 inv3 mods2 log2 h4

theorem exceptBindOk {ε α β : Type} {x : Except ε α} {f : α → Except ε β} {b : β}
    (h : x >>= f = .ok b) : ∃ a, x = .ok a ∧ f a = .ok b := by
  cases x with
  | error e =>
    simp only [bind, Except.bind] at h
    exact absurd h (by simp)
  | ok a =>
    refine ⟨a, rfl, ?_⟩
    simpa [bind, Except.bind] using h

theorem buildStmt_scopeOf (st : BState) (sc : Option Nat) (s s2 : Stmt) (st2 : BState)
    (h : buildStmt st sc s = .ok (s2, st2)) : s2.scopeOf = sc := by
  cases s with
  | importStmt sc0 p star items =>
    rw [buildStmt] at h
    split at h
    · injection h with h
      injection h with h1 h2
      subst h1
      rfl
    · obtain ⟨a, ha, hb⟩ := exceptBindOk h
      injection hb with hb
      injection hb with h1 h2
      subst h1
      rfl
  | fnDecl sc0 name params body =>
    rw [buildStmt] at h
    obtain ⟨a, ha, hb⟩ := exceptBindOk h
    obtain ⟨a2, ha2, hb2⟩ := exceptBindOk hb
    obtain ⟨a3, ha3, hb3⟩ := exceptBindOk hb2
    match a3 with
    | (body2, st3) =>
      injection hb3 with hb3
      injection hb3 with h1 h2
      subst h1
      rfl
  | macroDecl sc0 name params body =>
    rw [buildStmt] at h
    obtain ⟨a, ha, hb⟩ := exceptBindOk h
    injection hb with hb
    injection hb with h1 h2
    subst h1
    rfl
  | onBlock sc0 e body =>
    rw [buildStmt] at h
    obtain ⟨a, ha, hb⟩ := exceptBindOk h
    match a with
    | (body2, st3) =>
      injection hb with hb
      injection hb with h1 h2
      subst h1
      rfl
  | ifStmt sc0 c ib eb =>
    rw [buildStmt] at h
    obtain ⟨a, ha, hb⟩ := exceptBindOk h
    match a with
    | (ib2, st3) =>
      cases eb with
      | none =>
        simp only at hb
        injection hb with hb
        injection hb with h1 h2
        subst h1
        rfl
      | some b =>
        simp only at hb
        obtain ⟨a2, ha2, hb2⟩ := exceptBindOk hb
        match a2 with
        | (b2, st4) =>
          injection hb2 with hb2
          injection hb2 with h1 h2
          subst h1
          rfl
  | forStmt sc0 vt vn it body =>
    rw [buildStmt] at h
    obtain ⟨a, ha, hb⟩ := exceptBindOk h
    obtain ⟨a2, ha2, hb2⟩ := exceptBindOk hb
    match a2 with
    | (body2, st3) =>
      injection hb2 with hb2
      injection hb2 with h1 h2
      subst h1
      rfl
  | whileStmt sc0 c body =>
    rw [buildStmt] at h
    obtain ⟨a, ha, hb⟩ := exceptBindOk h
    match a with
    | (body2, st3) =>
      injection hb with hb
      injection hb with h1 h2
      subst h1
      rfl
  | assign sc0 t v =>
    rw [buildStmt] at h
    split at h
    · exact absurd h (by simp)
    · split at h
      · exact absurd h (by simp)
      · split at h
        · injection h with h
          injection h with h1 h2
          subst h1
          rfl
        · obtain ⟨a, ha, hb⟩ := exceptBindOk h
          injection hb with hb
          injection hb with h1 h2
          subst h1
          rfl
  | callStmt sc0 c args =>
    rw [buildStmt] at h
    injection h with h
    injection h with h1 h2
    subst h1
    rfl

theorem buildTopStmts_scopes :
    ∀ (stmts : List Stmt) (st : BState) (stmts2 : List Stmt) (st2 : BState),
      buildTopStmts st stmts = .ok (stmts2, st2) →
      stmts2.map Stmt.scopeOf = stmts.map Stmt.scopeOf := by
  intro stmts
  induction stmts with
  | nil =>
    intro st stmts2 st2 h
    rw [buildTopStmts] at h
    injection h with h
    injection h with h1 h2
    subst h1
    rfl
  | cons s rest ih =>
    intro st stmts2 st2 h
    rw [buildTopStmts] at h
    obtain ⟨a, ha, hb⟩ := exceptBindOk h
    match a with
    | (s2, stA) =>
      obtain ⟨a2, ha2, hb2⟩ := exceptBindOk hb
      match a2 with
      | (rest2, stB) =>
        injection hb2 with hb2
        injection hb2 with h1 h2
        subst h1
        simp only [List.map_cons]
        rw [buildStmt_scopeOf _ _ _ _ _ ha, ih _ _ _ ha2]

theorem buildModule_top_scopes (arena : List ScopeData) (path : String) (m m2 : Module)
    (arena2 : List ScopeData) (h : buildModule arena path m = .ok (m2, arena2)) :
    m2.statements.map Stmt.scopeOf = m.statements.map Stmt.scopeOf := by
  rw [buildModule] at h
  obtain ⟨a, ha, hb⟩ := exceptBindOk h
  match a with
  | (stmts2, stA) =>
    injection hb with hb
    injection hb with h1 h2
    subst h1
    exact buildTopStmts_scopes _ _ _ _ ha

/-! ## Claim theorems -/

/-- C1 (code bug): the claim - and the docstring of `MacroExpander.expand`
itself - says that spliced-in statement lists are re-processed during the same
traversal, so that a macro calling another macro is fully expanded and the
returned module has no macro-call statements left.  Evaluating the expander on
a module where `outer()` expands to `inner()` shows otherwise: the transformer
splices the macro body without revisiting it (and the spliced statements carry
no scope), so the returned module still contains the macro-call statement
`inner()` while declaring the macro `inner`.  Only the directly visited call
`outer` was expanded. -/
theorem c1_nested_macro_call_not_expanded :
    expandPipeline "main.oort" c1Module = some c1Expanded
    ∧ moduleHasCallTo "inner" c1Expanded = true
    ∧ moduleDeclaresMacroNamed "inner" c1Expanded = true
    ∧ moduleHasCallTo "outer" c1Expanded = false :=
  ⟨rfl, rfl, rfl, rfl⟩

/-- C2 counterexample: the claim says identifiers that are assignment targets
are never substituted during macro body substitution.  Substituting the body
statement `x = 1` of `macro m(x)` for the call `m(5)` replaces the TARGET
identifier by the argument expression: the expanded `on load` block contains
the assignment `5 = 1` (target is the NumberLiteral 5, not the identifier x). -/
theorem c2_assignment_target_is_substituted :
    substStmt [("x", .numLit 5)] (.assign none (.ident "x") (.numLit 1))
      = .assign none (.numLit 5) (.numLit 1)
    ∧ expandPipeline "main.oort" c2Module = some c2Expanded :=
  ⟨rfl, rfl⟩

/-- C2 (amended): during macro body substitution, for a macro call whose arity
matches, EVERY Identifier node whose name is a parameter key is replaced by
the corresponding argument expression - including identifiers in assignment
target position, since the generic transformer visits every node-valued field.
The substitution is non-recursive: a substituted argument expression is
returned verbatim and not re-scanned (second conjunct), identifiers that are
not parameters stay unchanged (third conjunct), and Variable nodes are a
different node class and are never substituted (fourth conjunct). -/
theorem c2_substitution_rewrites_all_identifiers :
    (∀ (m : List (String × Expr)) (sc : Option Nat) (t v : Expr),
      substStmt m (.assign sc t v) = .assign sc (substExpr m t) (substExpr m v))
    ∧ (∀ (m : List (String × Expr)) (p : String) (e : Expr),
      dictGet? m p = some e → substExpr m (.ident p) = e)
    ∧ (∀ (m : List (String × Expr)) (n : String),
      dictGet? m n = none → substExpr m (.ident n) = .ident n)
    ∧ (∀ (m : List (String × Expr)) (n : String), substExpr m (.varRef n) = .varRef n) := by
  refine ⟨fun m sc t v => rfl, fun m p e h => ?_, fun m n h => ?_, fun m n => rfl⟩
  · simp [substExpr, h]
  · simp [substExpr, h]

/-- Witness for C2: with the map sending x to the identifier y and y to 3, the
identifier x is replaced by the identifier y verbatim - y is NOT substituted
again even though it is also a parameter key. -/
theorem c2_substitution_rewrites_all_identifiers_witness :
    substExpr [("x", Expr.ident "y"), ("y", Expr.numLit 3)] (.ident "x") = .ident "y" :=
  c2_substitution_rewrites_all_identifiers.2.1
    [("x", Expr.ident "y"), ("y", Expr.numLit 3)] "x" (Expr.ident "y") rfl

/-- C3 counterexample: the claim says that a macro imported under an alias and
called via the alias is expanded to the macro body.  In fact
`_find_symbol` searches all modules for a macro declaration under the SAME
locally visible name it looked up - the alias - so for
`from "lib.oort" import foo as bar` followed by `bar(1)` no macro named `bar`
exists, the lookup falls back to the import symbol, and the call statement is
returned unchanged (the expanded `on load` body still holds `bar(1)`). -/
theorem c3_aliased_call_left_unexpanded :
    expandPipelineMulti [("lib.oort", c3Lib), ("main.oort", c3MainAliased)]
      = some
        [ ("lib.oort",
            { path := "lib.oort"
              statements :=
                [.macroDecl none "foo" ["x"] [.callStmt none (.ident "say") [.ident "x"]]]
              scope := some 0 })
        , ("main.oort",
            { path := "main.oort"
              statements :=
                [ .importStmt none "lib.oort" false [("foo", some "bar")]
                , .onBlock none "load" [.callStmt (some 2) (.ident "bar") [.numLit 1]] ]
              scope := some 1 }) ]
    ∧ findMacroDeclInModules [("lib.oort", c3Lib), ("main.oort", c3MainAliased)] "bar" = none :=
  ⟨rfl, rfl⟩

/-- C3 (amended): for an import-kind symbol, macro resolution searches all
modules for a macro declaration under the locally visible name itself (the
alias when one is given), not under the import target's declared name.  An
aliased call is therefore left unexpanded (previous counterexample), while a
macro imported WITHOUT an alias resolves (the locally visible name equals the
declared name) and the call is expanded to the substituted macro body. -/
theorem c3_alias_lookup_uses_alias_for_module_scan :
    expandPipelineMulti [("lib.oort", c3Lib), ("main.oort", c3MainPlain)]
      = some
        [ ("lib.oort",
            { path := "lib.oort"
              statements :=
                [.macroDecl none "foo" ["x"] [.callStmt none (.ident "say") [.ident "x"]]]
              scope := some 0 })
        , ("main.oort",
            { path := "main.oort"
              statements :=
                [ .importStmt none "lib.oort" false [("foo", none)]
                , .onBlock none "load" [.callStmt none (.ident "say") [.numLit 1]] ]
              scope := some 1 }) ]
    ∧ findMacroDeclInModules [("lib.oort", c3Lib), ("main.oort", c3MainPlain)] "foo"
      = some ("lib.oort",
          .macroDecl none "foo" ["x"] [.callStmt none (.ident "say") [.ident "x"]]) :=
  ⟨rfl, rfl⟩

/-- C4 counterexample: the claim says building this project produces a load
function file whose first line is the scoreboard-objective-creation command
and whose body is exactly `say 1`.  Neither part holds of the source.  First,
the build never writes the file at all: constructing the emitter reads
`config.build.debug_message`, an attribute `BuildConfig` does not define, so
the pipeline raises AttributeError (first and second conjuncts).  Second,
even with the defect patched out (the access reading False), the file holds
three lines whose FIRST line is the comment header `# Event: on load`; the
scoreboard command is not the first line and the file is not `["say 1"]`
(remaining conjuncts). -/
theorem c4_emission_crashes_before_writing :
    compilePipeline cMainCfg "main.oort" c4Module = none
    ∧ emitterInit debugMessageAttr cMainCfg
      = .error "AttributeError: \x27BuildConfig\x27 object has no attribute \x27debug_message\x27"
    ∧ compilePipelineNoDebug cMainCfg "main.oort" c4Module
      = some ⟨0, [], [("main/on_load", c4LoadLines)]⟩
    ∧ c4LoadLines.head? ≠ some ("scoreboard objectives add " ++ VARS_OBJECTIVE ++ " dummy")
    ∧ c4LoadLines ≠ ["say 1"] := by
  refine ⟨rfl, rfl, rfl, by decide, by decide⟩

/-- C4 (amended): building the project aborts with AttributeError before any
mcfunction file is written, because the emitter reads
`config.build.debug_message` and `BuildConfig` declares no such field (first
and second conjuncts).  Were that attribute present and False, emission of the
project whose `on load` block contains `foo(1)` with `macro foo(x) { say x; }`
in scope would produce exactly one load function file whose lines are the
comment header `# Event: on load`, then the scoreboard-objective-creation
command (the file\x27s second line, and first command), then `say 1` - the
only line contributed by the block body, showing the macro call expanded to
`say 1` (remaining conjuncts). -/
theorem c4_load_file_exact_lines :
    compilePipeline cMainCfg "main.oort" c4Module = none
    ∧ emitterInit debugMessageAttr cMainCfg
      = .error "AttributeError: \x27BuildConfig\x27 object has no attribute \x27debug_message\x27"
    ∧ compilePipelineNoDebug cMainCfg "main.oort" c4Module
      = some ⟨0, [], [("main/on_load", c4LoadLines)]⟩
    ∧ c4LoadLines
      = ["# Event: on load", "scoreboard objectives add oort_vars dummy", "say 1"]
    ∧ c4LoadLines.get? 1 = some "scoreboard objectives add oort_vars dummy"
    ∧ c4LoadLines.get? 2 = some "say 1" := by
  refine ⟨rfl, rfl, rfl, by decide, by decide, by decide⟩

/-- C5 counterexample: the claim says `parse_expression` never returns an
expression containing a BinaryExpr whose operator is `=`.  But EQUALS has
precedence 1 in the table and expression parsing starts at ambient precedence
0, so on the token sequence of `x = 5` the parser consumes `=` as a binary
operator and returns `BinaryExpr(x, "=", 5)`; the same expression is reachable
from statement level as the condition of `if x = 5 { say(1); }`. -/
theorem c5_equals_consumed_inside_expression :
    (parseExpression 50 ⟨c5ExprToks, 0, "main.oort"⟩ 0).toOption.map Prod.fst
      = some (.binary (.ident "x") "=" (.numLit 5))
    ∧ (parseStatement 50 ⟨c5IfToks, 0, "main.oort"⟩).toOption.map Prod.fst
      = some (.ifStmt none (.binary (.ident "x") "=" (.numLit 5))
          [.callStmt none (.ident "say") [.numLit 1]] none)
    ∧ exprHasBinaryOp "=" (.binary (.ident "x") "=" (.numLit 5)) = true :=
  ⟨rfl, rfl, rfl⟩

/-- C5 (amended): statement dispatch does recognize a bare identifier followed
by `=` as an assignment statement before any expression parsing starts (first
conjunct), and EQUALS has table precedence 1 (second conjunct) - but inside
expression parsing `=` is not unreachable: it is consumed as a binary operator
whenever the ambient precedence is 0 (every condition, iterable, argument or
parenthesized position), and only an ambient precedence of at least 1 stops
it (third conjunct: at precedence 1 the parser returns just `x`).  The last
two conjuncts state both halves in general: the climbing loop stops, leaving
the next token unconsumed, exactly when the ambient precedence reaches the
precedence of the next token - so an ambient precedence of at least 1 makes
every operator of precedence 1, EQUALS included, unreachable; and whenever
the next token is an identifier with EQUALS right behind it, statement
dispatch goes to `parse_assignment_statement` without entering expression
parsing at all. -/
theorem c5_equals_precedence_and_dispatch :
    (parseStatement 50 ⟨c5ExprToks, 0, "main.oort"⟩).toOption.map Prod.fst
      = some (.assign none (.ident "x") (.numLit 5))
    ∧ getPrecedence ⟨"EQUALS", "=", 1, 3, 2, 3⟩ = 1
    ∧ (parseExpression 50 ⟨c5ExprToks, 0, "main.oort"⟩ 1).toOption.map Prod.fst
      = some (.ident "x")
    ∧ (∀ (fuel : Nat) (s : PState) (prec : Nat) (left : Expr),
        getPrecedence (peekT s) ≤ prec →
        parseExprLoop (fuel + 1) s prec left = .ok (left, s))
    ∧ (∀ (fuel : Nat) (s : PState),
        (peekT s).type = "IDENT" → checkNextT s "EQUALS" = true →
        parseStatement (fuel + 1) s = parseAssignmentStatement fuel s) := by
  refine ⟨rfl, rfl, rfl, ?_, ?_⟩
  · intro fuel s prec left h
    rw [parseExprLoop]
    have hlt : decide (prec < getPrecedence (peekT s)) = false :=
      decide_eq_false (Nat.not_lt.mpr h)
    simp [hlt, pure, Except.pure]
  · intro fuel s hpeek hnext
    have h1 : isAtEnd s = false := by simp [isAtEnd, hpeek]
    rw [parseStatement]
    simp [matchT, checkT, h1, hpeek, hnext]

/-- Witness for C5: the loop-stopping conjunct applied to the parser state
sitting on the EQUALS token of `x = 5` at ambient precedence 1 returns the
accumulated left operand `x` with the EQUALS token unconsumed, and the
dispatch conjunct applied at the start of `x = 5` routes the statement to
assignment parsing. -/
theorem c5_equals_precedence_and_dispatch_witness :
    parseExprLoop 50 ⟨c5ExprToks, 1, "main.oort"⟩ 1 (.ident "x")
      = .ok (.ident "x", ⟨c5ExprToks, 1, "main.oort"⟩)
    ∧ parseStatement 50 ⟨c5ExprToks, 0, "main.oort"⟩
      = parseAssignmentStatement 49 ⟨c5ExprToks, 0, "main.oort"⟩ :=
  ⟨c5_equals_precedence_and_dispatch.2.2.2.1 49 ⟨c5ExprToks, 1, "main.oort"⟩ 1
      (.ident "x") (by decide),
   c5_equals_precedence_and_dispatch.2.2.2.2 49 ⟨c5ExprToks, 0, "main.oort"⟩
      rfl rfl⟩

/-- C6 counterexample: the claim says no produced token spans a newline and
every newline increments the line counter.  The STRING pattern matches any
non-quote characters including line breaks, so the source consisting of the
five characters quote a newline b quote lexes to a single STRING token whose
matched text contains the newline - and the line counter never advances (the
trailing EOF token still carries line 1). -/
theorem c6_string_token_spans_newline :
    tokenize c6Source
      = .ok [⟨"STRING", String.mk ['"', 'a', '\n', 'b', '"'], 1, 1, 0, 5⟩,
             ⟨"EOF", "", 1, 6, 5, 5⟩]
    ∧ '\n' ∈ (String.mk ['"', 'a', '\n', 'b', '"']).toList := by
  refine ⟨rfl, by decide⟩

/-- C6 (amended): for every source text accepted by the lexer, no produced
token OTHER THAN a string literal spans a newline: every token of the output
whose kind is not STRING has no line break in its matched text.  (String
literal tokens may contain line breaks, and those breaks do not advance the
line counter; newlines outside strings are matched by the discarded NEWLINE
pattern, which increments the line and resets the column as the loop shows.) -/
theorem c6_only_string_tokens_span_newline :
    ∀ (src : String) (toks : List Token), tokenize src = .ok toks →
      ∀ t ∈ toks, t.type ≠ "STRING" → '\n' ∉ t.value.toList := by
  intro src toks h
  apply lexLoop_no_newline _ _ _ _ _ _ _ _ _ h
  intro t ht
  simp at ht

/-- Witness for C6: applying the theorem to the three-token output of the
source `say` shows the IDENT token contains no newline. -/
theorem c6_only_string_tokens_span_newline_witness :
    '\n' ∉ (Token.mk "IDENT" "say" 1 1 0 3).value.toList :=
  c6_only_string_tokens_span_newline "say"
    [⟨"IDENT", "say", 1, 1, 0, 3⟩, ⟨"EOF", "", 1, 4, 3, 3⟩] rfl
    ⟨"IDENT", "say", 1, 1, 0, 3⟩ (List.Mem.head _) (by decide)

/-- C7 (confirmed): module resolution terminates on every import graph
including cycles.  First conjunct: whenever every import of every known file
resolves to a known file and the worklist holds known files, the FIFO
worklist drains and the loop returns without error (the loop itself is a
total function, so it terminates on all inputs).  Second conjunct: the
returned module map is keyed exactly by the read log and the log has no
duplicates - each reachable file is read and parsed exactly once and appears
exactly once in the map.  Third and fourth conjuncts: on the concrete cycle
where module A imports B and B imports A, the loop and the full
`discover_and_parse_all` (including entrypoint validation) return the
two-module map with each module exactly once, in visitation order. -/
theorem c7_resolver_terminates_each_file_once :
    (∀ (resolvePath : String → String → String) (fs : List (String × Module)),
      (∀ pm ∈ fs, ∀ imp ∈ moduleImports pm.2, resolvePath pm.1 imp ∈ fs.map Prod.fst) →
      ∀ (wl processed : List String) (mods : List (String × Module)) (readLog : List String),
        (∀ p ∈ wl, p ∈ fs.map Prod.fst) →
        ∃ r, resolveLoop resolvePath fs wl processed mods readLog = .ok r)
    ∧ (∀ (resolvePath : String → String → String) (fs : List (String × Module))
        (wl processed : List String) (mods : List (String × Module)) (readLog : List String),
        mods.map Prod.fst = readLog → processed = readLog → readLog.Nodup →
        ∀ (mods2 : List (String × Module)) (log2 : List String),
          resolveLoop resolvePath fs wl processed mods readLog = .ok (mods2, log2) →
          mods2.map Prod.fst = log2 ∧ log2.Nodup)
    ∧ resolveLoop c7Resolve c7Fs ["A", "B"] [] [] []
      = .ok ([("A", c7A), ("B", c7B)], ["A", "B"])
    ∧ discoverAndParseAll c7Resolve c7Fs "A" "B"
      = .ok ([("A", c7A), ("B", c7B)], ["A", "B"]) := by
  have e1 : resolveLoop c7Resolve c7Fs ["A", "B"] [] [] []
      = resolveLoop c7Resolve c7Fs ["B", "B"] ["A"] [("A", c7A)] ["A"] := by
    rw [resolveLoop]
    rfl
  have e2 : resolveLoop c7Resolve c7Fs ["B", "B"] ["A"] [("A", c7A)] ["A"]
      = resolveLoop c7Resolve c7Fs ["B"] ["A", "B"] [("A", c7A), ("B", c7B)] ["A", "B"] := by
    rw [resolveLoop]
    rfl
  have e3 : resolveLoop c7Resolve c7Fs ["B"] ["A", "B"] [("A", c7A), ("B", c7B)] ["A", "B"]
      = resolveLoop c7Resolve c7Fs [] ["A", "B"] [("A", c7A), ("B", c7B)] ["A", "B"] := by
    conv_lhs => rw [resolveLoop]
    rfl
  have e4 : resolveLoop c7Resolve c7Fs [] ["A", "B"] [("A", c7A), ("B", c7B)] ["A", "B"]
      = .ok ([("A", c7A), ("B", c7B)], ["A", "B"]) := by
    rw [resolveLoop]
  have eAll := (e1.trans e2).trans (e3.trans e4)
  refine ⟨resolveLoop_drains, resolveLoop_exactly_once, eAll, ?_⟩
  unfold discoverAndParseAll
  rw [eAll]
  rfl

/-- Witness for C7: exactly-once applied to the concrete A-B cycle: the
returned map keys equal the read log A, B, which has no duplicates. -/
theorem c7_resolver_terminates_each_file_once_witness :
    List.map Prod.fst [("A", c7A), ("B", c7B)] = ["A", "B"]
    ∧ (["A", "B"] : List String).Nodup :=
  c7_resolver_terminates_each_file_once.2.1 c7Resolve c7Fs ["A", "B"] [] [] []
    rfl rfl List.nodup_nil [("A", c7A), ("B", c7B)] ["A", "B"]
    c7_resolver_terminates_each_file_once.2.2.1

/-- C8: the claimed lowering rules for a conditional are real, but the
program cannot reach them - the emitter\x27s `config.build.debug_message`
accesses raise AttributeError on the `BuildConfig` of config.py, which has no
such field, so building `fn heal() { say "+"; } on tick { if hp < 10
{ heal(); } }` aborts before writing anything (first and second conjuncts).
The operator-to-range derivation itself holds for every literal right
operand: `<` v gives `..v-1`, `<=` v gives `..v`, `>` v gives `v+1..`, `>=` v
gives `v..`, and `==` v gives `v` (middle conjuncts).  With the access
patched to read False, the build produces exactly one auxiliary function file
holding the lowered then-block - the single line `function ns:main/heal` -
and emits at the call site exactly
`execute if score hp oort_vars matches ..9 run function ns:main/if_body_1`
(last conjunct). -/
theorem c8_if_lowering_layout :
    compilePipeline cMainCfg "main.oort" c8Module = none
    ∧ emitterInit debugMessageAttr cMainCfg
      = .error "AttributeError: \x27BuildConfig\x27 object has no attribute \x27debug_message\x27"
    ∧ (∀ (v : Int) (f : String), formatCondition (.binary (.ident "hp") "<" (.numLit v)) f
      = "execute if score hp oort_vars matches .." ++ toString (v - 1) ++ " run function " ++ f)
    ∧ (∀ (v : Int) (f : String), formatCondition (.binary (.ident "hp") "<=" (.numLit v)) f
      = "execute if score hp oort_vars matches .." ++ toString v ++ " run function " ++ f)
    ∧ (∀ (v : Int) (f : String), formatCondition (.binary (.ident "hp") ">" (.numLit v)) f
      = "execute if score hp oort_vars matches " ++ toString (v + 1) ++ ".. run function " ++ f)
    ∧ (∀ (v : Int) (f : String), formatCondition (.binary (.ident "hp") ">=" (.numLit v)) f
      = "execute if score hp oort_vars matches " ++ toString v ++ ".. run function " ++ f)
    ∧ (∀ (v : Int) (f : String), formatCondition (.binary (.ident "hp") "==" (.numLit v)) f
      = "execute if score hp oort_vars matches " ++ toString v ++ " run function " ++ f)
    ∧ compilePipelineNoDebug cMainCfg "main.oort" c8Module
      = some ⟨1, [],
          [ ("main/heal", ["# Function: heal", "say +"])
          , ("main/if_body_1", ["function ns:main/heal"])
          , ("main/on_tick",
              [ "# Event: on tick"
              , "execute if score hp oort_vars matches ..9 run function ns:main/if_body_1" ]) ]⟩ := by
  refine ⟨rfl, rfl, fun v f => ?_, fun v f => ?_, fun v f => ?_, fun v f => ?_,
    fun v f => ?_, rfl⟩
  all_goals simp [formatCondition, formatExpr, VARS_OBJECTIVE]

/-- C9 (confirmed): declaring two functions with the same name in one module
scope raises SymbolError with the duplicate-name message, while a first
assignment, inside a nested if-body block, to a name already declared in the
enclosing on-load block raises no error and creates a shadowing declaration:
the build succeeds and BOTH the outer block scope (index 1) and the inner
if-body scope (index 2, whose parent is 1) hold a symbol named x. -/
theorem c9_duplicate_function_errors_shadowing_allowed :
    buildModule [] "main.oort" c9Dup
      = .error (.symbolError "Name \x27f\x27 is already defined in this scope.")
    ∧ (buildModule [] "main.oort" c9Shadow).toOption.map
        (fun r => r.2.map (fun sd => (sd.parent, sd.symbols.map Prod.fst)))
      = some [(none, []), (some 0, ["x"]), (some 1, ["x"])] :=
  ⟨rfl, rfl⟩

/-- C10 (confirmed): the builder assigns scope attributes only through
`visit_Block`, so the statements that are direct children of the module root
keep whatever scope attribute they had - `None` for parser output - after any
builder pass (first conjunct: building preserves the top-level scope
attributes of every module).  A call statement with a `None` scope is never
expanded by the macro expander (second conjunct) and, when its callee is not
a built-in, is emitted as an unresolved-call diagnostic comment, for every
choice of the debug_message attribute access - the code path performs neither
the attribute access nor a scope lookup (third conjunct).  Concretely: in a
module with a top-level macro call `m()` and function call `f()`, expansion
leaves all top-level statements unchanged with `None` scopes (fourth
conjunct), the rebuild of the expanded module still leaves all four top-level
scope attributes `None` (fifth conjunct), and the emitter as the program runs
it - attribute access raising included - turns the two top-level calls into
exactly the two diagnostic comment lines, no `function` command and no file
(sixth conjunct). -/
theorem c10_top_level_statements_have_no_scope :
    (∀ (arena : List ScopeData) (path : String) (m m2 : Module) (arena2 : List ScopeData),
      buildModule arena path m = .ok (m2, arena2) →
      m2.statements.map Stmt.scopeOf = m.statements.map Stmt.scopeOf)
    ∧ (∀ (mods : List (String × Module)) (arena : List ScopeData) (n : String)
        (args : List Expr),
      expandStmt mods arena (.callStmt none (.ident n) args)
        = .ok [.callStmt none (.ident n) args])
    ∧ (∀ (dbg : BuildConfig → Except String Bool) (cfg : EmCfg) (arena : List ScopeData)
        (moduleBase : String) (st : EmState)
        (n : String) (args : List Expr), BUILTIN_COMMANDS.contains n = false →
        emitStmt dbg cfg arena moduleBase st (.callStmt none (.ident n) args)
          = .ok { st with outputLines :=
              st.outputLines ++ ["# ERROR: Unresolved function call to \x27" ++ n ++ "\x27"] })
    ∧ expandPipeline "main.oort" c10Module
      = some { path := "main.oort"
               statements :=
                 [ .macroDecl none "m" [] [.callStmt none (.ident "say") [.strLit "hi"]]
                 , .fnDecl none "f" [] [.callStmt (some 1) (.ident "say") [.strLit "a"]]
                 , .callStmt none (.ident "m") []
                 , .callStmt none (.ident "f") [] ]
               scope := some 0 }
    ∧ (buildModule [] "main.oort"
        { path := "main.oort"
          statements :=
            [ .macroDecl none "m" [] [.callStmt none (.ident "say") [.strLit "hi"]]
            , .fnDecl none "f" [] [.callStmt (some 1) (.ident "say") [.strLit "a"]]
            , .callStmt none (.ident "m") []
            , .callStmt none (.ident "f") [] ]
          scope := some 0 }).toOption.map (fun r => r.1.statements.map Stmt.scopeOf)
      = some [none, none, none, none]
    ∧ emitStmts debugMessageAttr cMainCfg [] "main" {}
        [.callStmt none (.ident "m") [], .callStmt none (.ident "f") []]
      = .ok ⟨0,
          [ "# ERROR: Unresolved function call to \x27m\x27"
          , "# ERROR: Unresolved function call to \x27f\x27" ], []⟩ := by
  refine ⟨buildModule_top_scopes, fun mods arena n args => rfl, ?_, rfl, rfl, rfl⟩
  intro dbg cfg arena moduleBase st n args h
  rw [emitStmt]
  simp only [exprName]
  rw [h]
  simp [findFunctionPath, pure, Except.pure]

/-- Witness for C10: emitting the top-level call `m()` (not a built-in, no
scope) under the faithful raising attribute access appends exactly the
unresolved-call diagnostic comment. -/
theorem c10_top_level_statements_have_no_scope_witness :
    emitStmt debugMessageAttr cMainCfg [] "main" {} (.callStmt none (.ident "m") [])
      = .ok { functionCount := 0
              outputLines := ["# ERROR: Unresolved function call to \x27m\x27"]
              files := [] } :=
  c10_top_level_statements_have_no_scope.2.2.1 debugMessageAttr cMainCfg [] "main" {} "m" [] rfl

end Oort
